import Mathlib

/-!
# Verification of the trendwise-ai-predictor ingestion pipeline

Shallow embedding, in Lean 4, of the tabular data ingestion and normalization
pipeline of the repository:

* `src/utils/numberParser.ts`   — `EnhancedNumberParser` (cell-level number parsing,
  context validation, batch statistics);
* `src/utils/columnMapper.ts`   — `EnhancedColumnMapper` (fuzzy header matching,
  Levenshtein similarity, confidence aggregation);
* the `EnhancedDateParser` (date formats, Y2K handling, calendar validation,
  plausibility bound, generic fallback);
* the most advanced `FileUpload` variant (`enhancedDataFilling` reconciliation,
  date-sort, minimum-row threshold in `validateAndProcessData`).

Modelling conventions:
* JavaScript numbers are modelled as exact rationals (`ℚ`).  Float rounding and
  overflow are below the abstraction; `NaN`/`Infinity` are modelled explicitly
  where the code can observe them (`Option ℚ`, with `none` for a non-finite value).
* `Number.prototype.toFixed(2)` composed with re-parsing is modelled by `toFixed2`,
  rounding to a multiple of 1/100 with ties toward `+∞`, which is the rounding the
  ECMAScript `toFixed` specification prescribes ("pick the larger n").
* JS `Date` values are abstracted by their calendar-day components; time-of-day and
  time-zone conversion inside `toISOString` are below the abstraction (the spec
  describes the output as a normalized calendar date with no time component).
* Strings are processed as `List Char`; `String.prototype.trim` is modelled with
  `Char.isWhitespace`.
* Display-only fields (human-readable descriptions, suggestion message strings,
  the `series` passthrough column) and `console.log` calls are not modelled.
-/

set_option allowUnsafeReducibility true in
attribute [semireducible] Rat.mul Rat.inv Rat.add Rat.sub Rat.ofScientific

/-- JS `x.toFixed(2)` re-read as a number: round `q` to a multiple of `1/100`,
ties toward `+∞` (ECMAScript `toFixed` picks the larger candidate integer). -/
def toFixed2 (q : ℚ) : ℚ := (⌊q * 100 + 1/2⌋ : ℤ) / 100

theorem toFixed2_mono {a b : ℚ} (h : a ≤ b) : toFixed2 a ≤ toFixed2 b := by
  unfold toFixed2
  have h2 : ((⌊a * 100 + 1/2⌋ : ℤ) : ℚ) ≤ ((⌊b * 100 + 1/2⌋ : ℤ) : ℚ) := by
    exact_mod_cast Int.floor_le_floor (by linarith)
  linarith

theorem toFixed2_idem (q : ℚ) : toFixed2 (toFixed2 q) = toFixed2 q := by
  unfold toFixed2
  have h1 : ((⌊q * 100 + 1/2⌋ : ℤ) : ℚ) / 100 * 100 + 1/2 = 1/2 + (⌊q * 100 + 1/2⌋ : ℤ) := by
    field_simp; ring
  rw [h1, Int.floor_add_int]
  norm_num

theorem toFixed2_nonneg {q : ℚ} (h : 0 ≤ q) : 0 ≤ toFixed2 q := by
  unfold toFixed2
  have h2 : (0 : ℤ) ≤ ⌊q * 100 + 1/2⌋ := Int.floor_nonneg.mpr (by linarith)
  have h3 : (0 : ℚ) ≤ ((⌊q * 100 + 1/2⌋ : ℤ) : ℚ) := by exact_mod_cast h2
  linarith

theorem toFixed2_pos {q : ℚ} (h : 1/200 ≤ q) : 0 < toFixed2 q := by
  unfold toFixed2
  have h2 : (1 : ℤ) ≤ ⌊q * 100 + 1/2⌋ := Int.le_floor.mpr (by push_cast; linarith)
  have h3 : (1 : ℚ) ≤ ((⌊q * 100 + 1/2⌋ : ℤ) : ℚ) := by exact_mod_cast h2
  linarith

theorem toFixed2_ge_hundredth_of {q : ℚ} (h : 1/200 ≤ q) : 1/100 ≤ toFixed2 q := by
  unfold toFixed2
  have h2 : (1 : ℤ) ≤ ⌊q * 100 + 1/2⌋ := Int.le_floor.mpr (by push_cast; linarith)
  have h3 : (1 : ℚ) ≤ ((⌊q * 100 + 1/2⌋ : ℤ) : ℚ) := by exact_mod_cast h2
  linarith

theorem toFixed2_ge_hundredth {q : ℚ} (h : 0 < toFixed2 q) : 1/100 ≤ toFixed2 q := by
  unfold toFixed2 at *
  have h1 : (0 : ℤ) < ⌊q * 100 + 1/2⌋ := by
    by_contra hc
    push_neg at hc
    have : ((⌊q * 100 + 1/2⌋ : ℤ) : ℚ) ≤ 0 := by exact_mod_cast hc
    nlinarith
  have h2 : (1 : ℤ) ≤ ⌊q * 100 + 1/2⌋ := h1
  have : (1 : ℚ) ≤ ((⌊q * 100 + 1/2⌋ : ℤ) : ℚ) := by exact_mod_cast h2
  linarith

/-! ## Character and string utilities shared by the parsers -/

/-- JS `String.prototype.trim`. -/
def jsTrim (cs : List Char) : List Char :=
  ((cs.dropWhile Char.isWhitespace).reverse.dropWhile Char.isWhitespace).reverse

/-- Does `hay` start with `needle`? -/
def startsWithChars : List Char → List Char → Bool
  | _, [] => true
  | [], _ :: _ => false
  | h :: hs, n :: ns => h == n && startsWithChars hs ns

/-- JS `String.prototype.includes` on char lists. -/
def hasSub : List Char → List Char → Bool
  | hay, needle =>
    startsWithChars hay needle ||
      match hay with
      | [] => false
      | _ :: t => hasSub t needle

/-- Split a char list at every occurrence of `sep` (like JS `split` on a 1-char
separator: consecutive separators yield empty fields). -/
def splitOnChar (sep : Char) : List Char → List (List Char)
  | [] => [[]]
  | c :: cs =>
    let r := splitOnChar sep cs
    if c == sep then [] :: r
    else (c :: r.headD []) :: r.tailD []

/-- Insert into a sorted list (kernel-computable insertion sort step). -/
def insertSorted (le : α → α → Bool) (x : α) : List α → List α
  | [] => [x]
  | y :: ys => if le x y then x :: y :: ys else y :: insertSorted le x ys

/-- Model of JS `Array.prototype.sort` with a total comparator: the algorithm is
unspecified by ECMAScript beyond producing an ordering consistent with the
comparator, modelled here by insertion sort. -/
def sortJs (le : α → α → Bool) (l : List α) : List α :=
  l.foldr (insertSorted le) []

theorem mem_insertSorted {le : α → α → Bool} {x a : α} {l : List α} :
    a ∈ insertSorted le x l ↔ a = x ∨ a ∈ l := by
  induction l with
  | nil => simp [insertSorted]
  | cons y ys ih =>
    simp only [insertSorted]
    split <;> simp_all <;> tauto

theorem mem_sortJs {le : α → α → Bool} {a : α} {l : List α} :
    a ∈ sortJs le l ↔ a ∈ l := by
  induction l with
  | nil => simp [sortJs]
  | cons y ys ih =>
    simp only [sortJs, List.foldr] at *
    rw [mem_insertSorted, ih]
    simp

theorem length_insertSorted (le : α → α → Bool) (x : α) (l : List α) :
    (insertSorted le x l).length = l.length + 1 := by
  induction l with
  | nil => rfl
  | cons y ys ih =>
    simp only [insertSorted]
    split <;> simp [ih]

theorem length_sortJs (le : α → α → Bool) (l : List α) :
    (sortJs le l).length = l.length := by
  induction l with
  | nil => rfl
  | cons y ys ih => simp [sortJs, length_insertSorted, List.foldr] at *; omega

/-- Decimal value of a digit list (`parseInt` on an all-digit string). -/
def digitsVal (ds : List Char) : ℕ :=
  ds.foldl (fun a c => a * 10 + (c.toNat - '0'.toNat)) 0

/-! ## `EnhancedNumberParser` (src/utils/numberParser.ts)

The four `NUMBER_PATTERNS` regular expressions are implemented as decision
procedures on the processed (currency-stripped, trimmed) string.  Their optional
currency-symbol/space prefix is unreachable after the stripping that the code
performs just before matching, so the matchers operate on the bare numeral. -/

/-- The currency symbols stripped by `parseNumber` (`CURRENCY_SYMBOLS`). -/
def isCurrencySymbol (c : Char) : Bool :=
  c == '₹' || c == '$' || c == '€' || c == '£' || c == '¥' || c == '₽'

/-- Regex `^[0-9]{1,3}(?:,[0-9]{3})*(?:\.[0-9]+)?$` (grouped decimal, 3-digit groups). -/
def matchGrouped3 (cs : List Char) : Bool :=
  match splitOnChar '.' cs with
  | [intPart] => grouped3Int intPart
  | [intPart, frac] => grouped3Int intPart && !frac.isEmpty && frac.all Char.isDigit
  | _ => false
where
  grouped3Int (intPart : List Char) : Bool :=
    match splitOnChar ',' intPart with
    | [] => false
    | g :: gs =>
      (1 ≤ g.length && g.length ≤ 3 && g.all Char.isDigit) &&
        gs.all (fun t => t.length == 3 && t.all Char.isDigit)

/-- Regex `^[0-9]{1,2}(?:,[0-9]{2})*(?:,[0-9]{3})?(?:\.[0-9]+)?$`
(South-Asian grouping: 1-2 leading digits, 2-digit groups, optional final 3-digit group). -/
def matchGrouped2 (cs : List Char) : Bool :=
  match splitOnChar '.' cs with
  | [intPart] => grouped2Int intPart
  | [intPart, frac] => grouped2Int intPart && !frac.isEmpty && frac.all Char.isDigit
  | _ => false
where
  grouped2Int (intPart : List Char) : Bool :=
    match splitOnChar ',' intPart with
    | [] => false
    | g :: gs =>
      (1 ≤ g.length && g.length ≤ 2 && g.all Char.isDigit) &&
        (match gs.reverse with
         | [] => true
         | last :: mids =>
           mids.all (fun t => t.length == 2 && t.all Char.isDigit) &&
             (last.length == 2 || last.length == 3) && last.all Char.isDigit)

/-- Exponent tail `[eE][+-]?[0-9]+` (must consume the whole remainder). -/
def matchExpTail : List Char → Bool
  | e :: rest =>
    (e == 'e' || e == 'E') &&
      (match rest with
       | '+' :: ds => !ds.isEmpty && ds.all Char.isDigit
       | '-' :: ds => !ds.isEmpty && ds.all Char.isDigit
       | ds => !ds.isEmpty && ds.all Char.isDigit)
  | [] => false

/-- Regex `^[0-9]+\.?[0-9]*[eE][+-]?[0-9]+$` (scientific notation). -/
def matchSci (cs : List Char) : Bool :=
  let (d1, r1) := cs.span Char.isDigit
  !d1.isEmpty &&
    (match r1 with
     | '.' :: r2 => matchExpTail (r2.dropWhile Char.isDigit)
     | r => matchExpTail r)

/-- Regex `^[0-9]+\.?[0-9]*$` (plain decimal). -/
def matchPlain (cs : List Char) : Bool :=
  let (d1, r1) := cs.span Char.isDigit
  !d1.isEmpty &&
    (match r1 with
     | [] => true
     | '.' :: r2 => r2.all Char.isDigit
     | _ => false)

/-- Numeric value of a matched numeral (after comma removal):
`[0-9]+(\.[0-9]*)?([eE][+-]?[0-9]+)?`, evaluated exactly in `ℚ`. -/
def ratOfNumeral (cs : List Char) : ℚ :=
  let (d1, r1) := cs.span Char.isDigit
  let (frac, r2) : List Char × List Char :=
    match r1 with
    | '.' :: t => (t.takeWhile Char.isDigit, t.dropWhile Char.isDigit)
    | r => ([], r)
  let base : ℚ := (digitsVal d1 : ℚ) + (digitsVal frac : ℚ) / (10 : ℚ) ^ frac.length
  match r2 with
  | _ :: t =>
    match t with
    | '+' :: ds => base * (10 : ℚ) ^ (digitsVal ds : ℤ)
    | '-' :: ds => base * (10 : ℚ) ^ (-(digitsVal ds : ℤ))
    | ds => base * (10 : ℚ) ^ (digitsVal ds : ℤ)
  | [] => base

/-- JS `parseFloat` on a string: skip leading whitespace, optional sign, then the
longest prefix shaped `[0-9]*\.?[0-9]*` (at least one digit) with an optional
complete exponent.  `none` models a non-finite outcome (`NaN`, or an `Infinity`
literal), which the call sites discard via `isNaN`/`isFinite` checks. -/
def jsParseFloat (cs : List Char) : Option ℚ :=
  let cs := cs.dropWhile Char.isWhitespace
  let (neg, cs) : Bool × List Char :=
    match cs with
    | '-' :: t => (true, t)
    | '+' :: t => (false, t)
    | t => (false, t)
  if startsWithChars cs "Infinity".toList then none
  else
    let (d1, r1) := cs.span Char.isDigit
    let (frac, r2) : List Char × List Char :=
      match r1 with
      | '.' :: t => (t.takeWhile Char.isDigit, t.dropWhile Char.isDigit)
      | r => ([], r)
    if d1.isEmpty && frac.isEmpty then none
    else
      let base : ℚ := (digitsVal d1 : ℚ) + (digitsVal frac : ℚ) / (10 : ℚ) ^ frac.length
      let withExp : ℚ :=
        match r2 with
        | e :: t =>
          if e == 'e' || e == 'E' then
            match t with
            | '+' :: ds =>
              if (ds.takeWhile Char.isDigit).isEmpty then base
              else base * (10 : ℚ) ^ (digitsVal (ds.takeWhile Char.isDigit) : ℤ)
            | '-' :: ds =>
              if (ds.takeWhile Char.isDigit).isEmpty then base
              else base * (10 : ℚ) ^ (-(digitsVal (ds.takeWhile Char.isDigit) : ℤ))
            | ds =>
              if (ds.takeWhile Char.isDigit).isEmpty then base
              else base * (10 : ℚ) ^ (digitsVal (ds.takeWhile Char.isDigit) : ℤ)
          else base
        | [] => base
      some (if neg then -withExp else withExp)

/-- A raw cell value handed to `parseNumber`: JS `null`/`undefined`, a `NaN` or
non-finite number, a finite number, or a string (booleans/objects behave as their
string form and are subsumed by `vStr`). -/
inductive RawValue where
  | vNull
  | vNaN
  | vNum (q : ℚ)
  | vStr (s : String)
  deriving Repr, DecidableEq

inductive NumCtx where
  | price
  | volume
  | percentage
  deriving Repr, DecidableEq

/-- Result record of `parseNumber` (the display-only `originalValue` and
`formatted` fields are not modelled). -/
structure ParsedNumber where
  value : ℚ
  isValid : Bool
  confidence : ℚ
  deriving Repr, DecidableEq

namespace EnhancedNumberParser

/-- `validateNumber(num, context)`: context-specific plausibility refinement. -/
def validateNumber (num : ℚ) (ctx : NumCtx) : Bool × ℚ :=
  match ctx with
  | .price =>
    if num < 0 then (false, 0)
    else if num > 100000 then (true, 0.7)
    else if num < 0.01 then (true, 0.6)
    else (true, 0.9)
  | .volume =>
    if num < 0 then (false, 0)
    else if num ≠ (⌊num⌋ : ℚ) then (true, 0.7)
    else if num > 10000000000 then (true, 0.6)
    else (true, 0.9)
  | .percentage =>
    if |num| > 50 then (true, 0.5)
    else if |num| > 20 then (true, 0.7)
    else (true, 0.9)

/-- `NUMBER_PATTERNS`: each matcher paired with its base confidence. -/
def NUMBER_PATTERNS : List ((List Char → Bool) × ℚ) :=
  [(matchGrouped3, 0.9), (matchGrouped2, 0.85), (matchSci, 0.8), (matchPlain, 0.7)]

/-- First pattern that matches the processed string; yields the parsed value
(commas stripped) and the pattern's base confidence. -/
def tryPatterns : List ((List Char → Bool) × ℚ) → List Char → Option (ℚ × ℚ)
  | [], _ => none
  | (m, c) :: rest, cs =>
    if m cs then some (ratOfNumeral (cs.filter (fun ch => ch ≠ ',')), c)
    else tryPatterns rest cs

/-- `EnhancedNumberParser.parseNumber(value, context)`. -/
def parseNumber (v : RawValue) (ctx : NumCtx) : ParsedNumber :=
  match v with
  | .vNull => ⟨0, false, 0⟩
  | .vNaN => ⟨0, false, 0⟩
  | .vNum q => ⟨q, true, 1⟩
  | .vStr s =>
    if s = "" then ⟨0, false, 0⟩
    else
      let clean := jsTrim s.toList
      let processed := jsTrim (clean.filter (fun c => !isCurrencySymbol c))
      match tryPatterns NUMBER_PATTERNS processed with
      | some (q, pc) => ⟨q, (validateNumber q ctx).1, pc * (validateNumber q ctx).2⟩
      | none =>
        match jsParseFloat s.toList with
        | some q => ⟨q, (validateNumber q ctx).1, 0.3 * (validateNumber q ctx).2⟩
        | none => ⟨0, false, 0⟩

/-- Result of `calculateStatistics`.  The source also returns
`stdDev = Math.sqrt(variance)`; the square root is not rational, so the model
carries the `variance` it is derived from (no claim mentions `stdDev`). -/
structure Stats where
  mean : ℚ
  median : ℚ
  variance : ℚ
  outliers : List ParsedNumber
  confidence : ℚ
  deriving Repr, DecidableEq

/-- `EnhancedNumberParser.calculateStatistics(numbers)`: mean/median/variance on
the valid subset, 1.5×IQR outlier detection, and aggregate confidence. -/
def calculateStatistics (numbers : List ParsedNumber) : Stats :=
  let validNumbers := numbers.filter (·.isValid)
  if validNumbers.isEmpty then ⟨0, 0, 0, [], 0⟩
  else
    let values := validNumbers.map (·.value)
    let n : ℕ := values.length
    let mean := values.sum / (n : ℚ)
    let sortedValues := sortJs (fun a b => decide (a ≤ b)) values
    let median :=
      if n % 2 == 0 then
        ((sortedValues.getD (n / 2 - 1) 0) + (sortedValues.getD (n / 2) 0)) / 2
      else sortedValues.getD (n / 2) 0
    let variance := (values.map (fun v => (v - mean) ^ 2)).sum / (n : ℚ)
    let q1 := sortedValues.getD (n * 25 / 100) 0
    let q3 := sortedValues.getD (n * 75 / 100) 0
    let iqr := q3 - q1
    let lowerBound := q1 - 1.5 * iqr
    let upperBound := q3 + 1.5 * iqr
    let outliers := validNumbers.filter (fun m => m.value < lowerBound || upperBound < m.value)
    let avgConfidence := (validNumbers.map (·.confidence)).sum / (n : ℚ)
    let outlierPenalty := min ((outliers.length : ℚ) / (n : ℚ)) 0.3
    ⟨mean, median, variance, outliers, max (avgConfidence - outlierPenalty) 0.1⟩

theorem validateNumber_conf_bounds (q : ℚ) (ctx : NumCtx) :
    0 ≤ (validateNumber q ctx).2 ∧ (validateNumber q ctx).2 ≤ 1 ∧
      ((validateNumber q ctx).1 = false → (validateNumber q ctx).2 = 0) := by
  cases ctx <;> simp only [validateNumber] <;> split_ifs <;> norm_num

theorem tryPatterns_conf_cases {cs : List Char} {q c : ℚ}
    (h : tryPatterns NUMBER_PATTERNS cs = some (q, c)) :
    c = 0.9 ∨ c = 0.85 ∨ c = 0.8 ∨ c = 0.7 := by
  simp only [NUMBER_PATTERNS, tryPatterns] at h
  split_ifs at h <;> simp_all

end EnhancedNumberParser

open EnhancedNumberParser in
/-- C9: `parseNumber` is a total function; on every input and in every context its
confidence lies in `[0, 1]`, and every result with `isValid = false` carries
confidence `0`.  (The original claim additionally asserted that every failing
result has value `0`; the fallback branch refutes that — see the counterexample.) -/
theorem C9_parseNumber_safety (v : RawValue) (ctx : NumCtx) :
    0 ≤ (parseNumber v ctx).confidence ∧ (parseNumber v ctx).confidence ≤ 1 ∧
      ((parseNumber v ctx).isValid = false → (parseNumber v ctx).confidence = 0) := by
  obtain ⟨hv0, hv1, hvz⟩ := validateNumber_conf_bounds 0 ctx
  cases v with
  | vNull => simp [parseNumber]
  | vNaN => simp [parseNumber]
  | vNum q => simp [parseNumber]
  | vStr s =>
    by_cases hs : s = ""
    · simp [parseNumber, hs]
    · simp only [parseNumber, hs, if_neg, ite_false]
      rcases htp : tryPatterns NUMBER_PATTERNS
          (jsTrim ((jsTrim s.toList).filter (fun c => !isCurrencySymbol c))) with _ | ⟨q, pc⟩
      · rcases hpf : jsParseFloat s.toList with _ | q
        · simp [htp, hpf]
        · obtain ⟨h0, h1, hz⟩ := validateNumber_conf_bounds q ctx
          simp only [htp, hpf]
          refine ⟨by positivity, ?_, fun hval => by rw [hz hval]; norm_num⟩
          nlinarith
      · obtain ⟨h0, h1, hz⟩ := validateNumber_conf_bounds q ctx
        have hc := tryPatterns_conf_cases htp
        simp only [htp]
        refine ⟨?_, ?_, fun hval => by rw [hz hval]; norm_num⟩
        · rcases hc with h | h | h | h <;> rw [h] <;> positivity
        · rcases hc with h | h | h | h <;> rw [h] <;> nlinarith

open EnhancedNumberParser in
/-- C9 counterexample: on input `"-5"` in `price` context the fallback branch
returns `isValid = false` with value `-5`, not value `0` — refuting the clause
"every failure branch yields value 0". -/
theorem C9_counterexample_fallback_negative :
    (parseNumber (.vStr "-5") .price).isValid = false ∧
      (parseNumber (.vStr "-5") .price).value = -5 := by decide

open EnhancedNumberParser in
/-- Witness for C9 at a concrete input. -/
theorem C9_parseNumber_safety_witness :
    0 ≤ (parseNumber (.vStr "-5") .price).confidence ∧
      (parseNumber (.vStr "-5") .price).confidence ≤ 1 ∧
      ((parseNumber (.vStr "-5") .price).isValid = false →
        (parseNumber (.vStr "-5") .price).confidence = 0) :=
  C9_parseNumber_safety (.vStr "-5") .price

open EnhancedNumberParser in
/-- C8: the batch-statistics confidence is the average per-value confidence of the
valid subset minus the outlier fraction capped at `0.3`, floored at `0.1`; on the
price set `[10, 11, 9, 10, 1000]` the value `1000` is flagged as a 1.5×IQR outlier
and the aggregate confidence (0.8) is strictly below the one for
`[10, 11, 9, 10, 12]` (1.0). -/
theorem C8_calculateStatistics_confidence (numbers : List ParsedNumber)
    (h : numbers.filter (·.isValid) ≠ []) :
    (calculateStatistics numbers).confidence =
      max (((numbers.filter (·.isValid)).map (·.confidence)).sum
            / ((numbers.filter (·.isValid)).length : ℚ)
          - min (((calculateStatistics numbers).outliers.length : ℚ)
            / ((numbers.filter (·.isValid)).length : ℚ)) 0.3) 0.1 ∧
    parseNumber (.vNum 1000) .price ∈
      (calculateStatistics ([10, 11, 9, 10, 1000].map
        (fun q => parseNumber (.vNum q) .price))).outliers ∧
    (calculateStatistics ([10, 11, 9, 10, 1000].map
        (fun q => parseNumber (.vNum q) .price))).confidence <
      (calculateStatistics ([10, 11, 9, 10, 12].map
        (fun q => parseNumber (.vNum q) .price))).confidence := by
  refine ⟨?_, by decide, by decide⟩
  simp only [calculateStatistics, List.isEmpty_iff, if_neg h, List.length_map]

open EnhancedNumberParser in
/-- The parsed sample `[10, 11, 9, 10, 1000]` in price context (for the C8 witness). -/
def c8Sample : List ParsedNumber :=
  [10, 11, 9, 10, 1000].map (fun q => parseNumber (.vNum q) .price)

open EnhancedNumberParser in
/-- Witness for C8 at a concrete input. -/
theorem C8_calculateStatistics_confidence_witness :
    c8Sample.filter (·.isValid) ≠ [] ∧
    (calculateStatistics c8Sample).confidence =
      max (((c8Sample.filter (·.isValid)).map (·.confidence)).sum
            / ((c8Sample.filter (·.isValid)).length : ℚ)
          - min (((calculateStatistics c8Sample).outliers.length : ℚ)
            / ((c8Sample.filter (·.isValid)).length : ℚ)) 0.3) 0.1 :=
  ⟨by decide, (C8_calculateStatistics_confidence c8Sample (by decide)).1⟩

/-! ## `EnhancedColumnMapper` (src/utils/columnMapper.ts) -/

/-- One row of the next Levenshtein DP matrix row: walks the characters of `str1`
carrying the diagonal and left entries (`matrix[j-1][i-1]`, `matrix[j][i-1]`) and
the tail of the previous row. -/
def levGo (bc : Char) : List Char → ℕ → ℕ → List ℕ → List ℕ
  | [], _, _, _ => []
  | ac :: as_, diag, left, prevTail =>
    let above := prevTail.headD 0
    let entry := min (min (left + 1) (above + 1)) (diag + if ac == bc then 0 else 1)
    entry :: levGo bc as_ above entry (prevTail.tailD [])

/-- Next row of the Levenshtein DP matrix (`matrix[j]` from `matrix[j-1]`). -/
def levRow (a : List Char) (prev : List ℕ) (bc : Char) : List ℕ :=
  let h := prev.headD 0
  (h + 1) :: levGo bc a h (h + 1) prev.tail

/-- `levenshteinDistance(str1, str2)` via the dynamic-programming matrix of the
source (row `j` for each char of `str2`, final entry `matrix[str2.length][str1.length]`). -/
def levenshteinDistance (a b : List Char) : ℕ :=
  (b.foldl (levRow a) (List.range (a.length + 1))).getLastD 0

/-- `levenshteinSimilarity(str1, str2) = 1 - distance / maxLength` (0 when both empty). -/
def levenshteinSimilarity (a b : List Char) : ℚ :=
  let maxLength := max a.length b.length
  if maxLength > 0 then 1 - (levenshteinDistance a b : ℚ) / (maxLength : ℚ) else 0

/-- Lower-cased, trimmed character list of a header (JS `toLowerCase().trim()`). -/
def lowerTrim (s : String) : List Char :=
  jsTrim (s.toList.map Char.toLower)

namespace EnhancedColumnMapper

/-- `calculateSimilarity(str1, str2)`: 1.0 exact (case-insensitive), 0.9 containment
either way, else normalized Levenshtein similarity. -/
def calculateSimilarity (str1 str2 : String) : ℚ :=
  if lowerTrim str1 = lowerTrim str2 then 1
  else
    let s1 := lowerTrim str1
    let s2 := lowerTrim str2
    if hasSub s1 s2 || hasSub s2 s1 then 0.9
    else levenshteinSimilarity s1 s2

/-- A canonical-field entry of `COLUMN_DEFINITIONS` (display-only description omitted). -/
structure ColumnDef where
  name : String
  variations : List String
  required : Bool
  weight : ℚ
  deriving Repr

/-- The full `COLUMN_DEFINITIONS` dictionary, in source order. -/
def COLUMN_DEFINITIONS : List ColumnDef :=
  [⟨"date",
    ["Date", "DATE", "date", "timestamp", "Timestamp", "TIME", "time",
     "trading_date", "TRADING_DATE", "trade_date", "TRADE_DATE",
     "dt", "DT", "day", "Day", "DAY"], true, 1.0⟩,
   ⟨"series",
    ["series", "Series", "SERIES", "symbol", "Symbol", "SYMBOL",
     "ticker", "Ticker", "TICKER", "market_segment", "MARKET_SEGMENT",
     "seg", "SEG", "segment", "Segment", "SEGMENT"], false, 0.6⟩,
   ⟨"open",
    ["OPEN", "open", "Open", "opening", "Opening", "OPENING",
     "open_price", "OPEN_PRICE", "openPrice", "OpenPrice",
     "o", "O"], true, 0.9⟩,
   ⟨"high",
    ["HIGH", "high", "High", "maximum", "max", "Max", "MAX",
     "day_high", "DAY_HIGH", "dayHigh", "DayHigh",
     "h", "H", "peak", "Peak", "PEAK"], true, 0.9⟩,
   ⟨"low",
    ["LOW", "low", "Low", "minimum", "min", "Min", "MIN",
     "day_low", "DAY_LOW", "dayLow", "DayLow",
     "l", "L", "bottom", "Bottom", "BOTTOM"], true, 0.9⟩,
   ⟨"close",
    ["close", "Close", "CLOSE", "closing", "Closing", "CLOSING",
     "closing_price", "CLOSING_PRICE", "closingPrice", "ClosingPrice",
     "c", "C", "end", "End", "END"], true, 1.0⟩,
   ⟨"prevClose",
    ["PREV. CLOSE", "PREV CLOSE", "prev close", "previous close",
     "prevclose", "prev_close", "previous_close", "PREVIOUS_CLOSE",
     "prevClose", "PrevClose", "previousClose", "PreviousClose",
     "last_close", "LAST_CLOSE"], false, 0.7⟩,
   ⟨"ltp",
    ["ltp", "LTP", "Ltp", "last_price", "LAST_PRICE", "lastPrice",
     "last_traded_price", "LAST_TRADED_PRICE", "lastTradedPrice",
     "current", "Current", "CURRENT", "latest", "Latest", "LATEST"], false, 0.8⟩,
   ⟨"vwap",
    ["vwap", "VWAP", "Vwap", "weighted average", "avg price", "avgPrice",
     "volume_weighted_avg", "VOLUME_WEIGHTED_AVG", "volumeWeightedAvg",
     "wap", "WAP", "weighted_avg", "WEIGHTED_AVG"], false, 0.6⟩,
   ⟨"volume",
    ["VOLUME", "volume", "Volume", "vol", "Vol", "VOL",
     "quantity", "Quantity", "QUANTITY", "qty", "Qty", "QTY",
     "shares_traded", "SHARES_TRADED", "sharesTrade", "SharesTraded",
     "units", "Units", "UNITS"], true, 0.9⟩,
   ⟨"value",
    ["VALUE", "value", "Value", "turnover", "Turnover", "TURNOVER",
     "amount", "Amount", "AMOUNT", "total_value", "TOTAL_VALUE",
     "totalValue", "TotalValue", "worth", "Worth", "WORTH"], false, 0.7⟩,
   ⟨"trades",
    ["No of trades", "NO OF TRADES", "trades", "trade count", "tradeCount",
     "transactions", "no_of_trades", "trade_count", "TRADE_COUNT",
     "Number of trades", "NUMBER OF TRADES", "numberOfTrades",
     "tx", "TX", "trans", "Trans", "TRANS"], false, 0.6⟩,
   ⟨"fiftyTwoWeekHigh",
    ["52W H", "52W_H", "52w high", "52 week high", "52WeekHigh",
     "yearly high", "52_week_high", "52WH", "52W HIGH",
     "year_high", "YEAR_HIGH", "yearHigh", "YearHigh"], false, 0.5⟩,
   ⟨"fiftyTwoWeekLow",
    ["52W L", "52W_L", "52w low", "52 week low", "52WeekLow",
     "yearly low", "52_week_low", "52WL", "52W LOW",
     "year_low", "YEAR_LOW", "yearLow", "YearLow"], false, 0.5⟩]

/-- `findBestMatch(headers, variations)`: scan all (header, variation) pairs in
order; keep the first strictly-best pair with similarity above `0.7`. -/
def findBestMatch (headers : List String) (variations : List String) :
    Option (String × ℚ) :=
  headers.foldl
    (fun best header =>
      variations.foldl
        (fun best variation =>
          let c := calculateSimilarity header variation
          if decide (c > 0.7) && (match best with
                                  | none => true
                                  | some b => decide (c > b.2)) then some (header, c)
          else best)
        best)
    none

/-- One mapping entry (`ColumnMapping` without the display-only fields). -/
structure Mapping where
  standardName : String
  originalName : String
  confidence : ℚ
  deriving Repr, DecidableEq

/-- `MappingResult` (the suggestion message strings are display-only and omitted). -/
structure MappingResult where
  mappings : List Mapping
  unmappedColumns : List String
  confidence : ℚ
  deriving Repr, DecidableEq

/-- Loop body of `mapColumns` over one entry of `COLUMN_DEFINITIONS`: record the
mapping and accumulate `totalConfidence += confidence * weight`, `mappedCount += 1`. -/
def mapStep (headers : List String) (acc : List Mapping × ℚ × ℕ) (cd : ColumnDef) :
    List Mapping × ℚ × ℕ :=
  match findBestMatch headers cd.variations with
  | some bm => (acc.1 ++ [⟨cd.name, bm.1, bm.2⟩], acc.2.1 + bm.2 * cd.weight, acc.2.2 + 1)
  | none => acc

/-- `EnhancedColumnMapper.mapColumns(headers)`: accumulate
`totalConfidence += confidence * weight` and `mappedCount += 1` per mapped field,
and report `totalConfidence / mappedCount` as overall confidence. -/
def mapColumns (headers : List String) : MappingResult :=
  let acc := COLUMN_DEFINITIONS.foldl (mapStep headers) ([], 0, 0)
  let mappedHeaders := acc.1.map (·.originalName)
  { mappings := acc.1
    unmappedColumns := headers.filter (fun h => !mappedHeaders.contains h)
    confidence := if acc.2.2 > 0 then acc.2.1 / (acc.2.2 : ℚ) else 0 }

/-- The per-field (confidence, weight) pairs of exactly the mapped fields, stated
independently of the accumulator in `mapColumns`. -/
def mappedConfWeights (headers : List String) : List (ℚ × ℚ) :=
  COLUMN_DEFINITIONS.filterMap
    (fun cd => (findBestMatch headers cd.variations).map (fun bm => (bm.2, cd.weight)))

theorem mapColumns_foldl_spec (headers : List String) (L : List ColumnDef)
    (acc : List Mapping × ℚ × ℕ) :
    (L.foldl (mapStep headers) acc).2 =
      (acc.2.1 +
        ((L.filterMap (fun cd =>
          (findBestMatch headers cd.variations).map (fun bm => (bm.2, cd.weight)))).map
            (fun p => p.1 * p.2)).sum,
       acc.2.2 +
        (L.filterMap (fun cd =>
          (findBestMatch headers cd.variations).map (fun bm => (bm.2, cd.weight)))).length) := by
  induction L generalizing acc with
  | nil => simp
  | cons cd rest ih =>
    rcases h : findBestMatch headers cd.variations with _ | bm <;>
      simp only [List.foldl_cons, List.filterMap_cons, h, Option.map_none, Option.map_some,
        mapStep] <;> rw [ih] <;> simp <;> constructor <;> ring

end EnhancedColumnMapper

open EnhancedColumnMapper in
/-- C4 (amended): the overall confidence of `mapColumns` is the sum of
`confidence × weight` over the mapped fields divided by the **number** of mapped
fields (not by the sum of their weights), and `0` when nothing is mapped. -/
theorem C4_mapColumns_confidence (headers : List String) :
    (mapColumns headers).confidence =
      if mappedConfWeights headers = [] then 0
      else ((mappedConfWeights headers).map (fun p => p.1 * p.2)).sum
            / ((mappedConfWeights headers).length : ℚ) := by
  have h := mapColumns_foldl_spec headers COLUMN_DEFINITIONS ([], 0, 0)
  have h1 := congrArg Prod.fst h
  have h2 := congrArg Prod.snd h
  simp only at h1 h2
  simp only [mapColumns, mappedConfWeights, h1, h2, zero_add]
  by_cases hL : (COLUMN_DEFINITIONS.filterMap (fun cd =>
      (findBestMatch headers cd.variations).map (fun bm => (bm.2, cd.weight)))) = []
  · simp [hL]
  · have : 0 < (COLUMN_DEFINITIONS.filterMap (fun cd =>
        (findBestMatch headers cd.variations).map (fun bm => (bm.2, cd.weight)))).length :=
      List.length_pos.mpr hL
    simp [hL, this]

set_option maxRecDepth 100000 in
open EnhancedColumnMapper in
/-- C4 counterexample: for the header list `["VOLUME"]` the code reports overall
confidence `0.765 = totalConfidence / mappedCount`, while the importance-weighted
average over the mapped fields is `51/55 ≈ 0.927`; the two disagree, refuting the
claim that the overall confidence is the weighted average. -/
theorem C4_counterexample_volume_header :
    (mapColumns ["VOLUME"]).confidence = 153/200 ∧
    ((mappedConfWeights ["VOLUME"]).map (fun p => p.1 * p.2)).sum
        / ((mappedConfWeights ["VOLUME"]).map (·.2)).sum = 51/55 ∧
    (mapColumns ["VOLUME"]).confidence ≠
      ((mappedConfWeights ["VOLUME"]).map (fun p => p.1 * p.2)).sum
        / ((mappedConfWeights ["VOLUME"]).map (·.2)).sum := by
  refine ⟨by decide, by decide, by decide⟩

/-! ## `EnhancedDateParser`

JS `Date` values are abstracted by the calendar-day triple `(year, month, day)`
with the month 0-indexed as in JavaScript; `toISOString().split('T')[0]` becomes
`isoOfDt` on that triple (time-of-day and time-zone conversion are below the
abstraction).  The JS round-trip validation
`new Date(y, m, d); d.getDate() === day && d.getMonth() === month && d.getFullYear() === year`
is modelled by its observable meaning: the day must lie in `[1, daysInMonth]` and
the year must not be in `[0, 99]` (the `Date(y, m, d)` constructor maps years
0–99 to 1900–1999, so such years never survive the `getFullYear` comparison). -/

/-- A calendar date triple; `m` is the JS 0-indexed month. -/
structure Dt where
  y : ℤ
  m : ℤ
  d : ℤ
  deriving Repr, DecidableEq

/-- Gregorian leap-year rule (as implemented by JS `Date`). -/
def isLeapYear (y : ℤ) : Bool :=
  (y % 4 == 0 && y % 100 != 0) || y % 400 == 0

/-- Days in the (0-indexed) month `m` of year `y`. -/
def daysInMonth (y m : ℤ) : ℤ :=
  if m = 1 then (if isLeapYear y then 29 else 28)
  else if m = 3 ∨ m = 5 ∨ m = 8 ∨ m = 10 then 30
  else 31

/-- Left-pad the decimal form of a nonnegative integer to width `w`. -/
def padNum (w : ℕ) (n : ℤ) : String :=
  let s := toString n.toNat
  String.mk (List.replicate (w - s.length) '0') ++ s

/-- `date.toISOString().split('T')[0]` on the calendar abstraction. -/
def isoOfDt (dt : Dt) : String :=
  padNum 4 dt.y ++ "-" ++ padNum 2 (dt.m + 1) ++ "-" ++ padNum 2 dt.d

/-- Result record of `parseDate` / `parseWithFormat`. -/
structure ParsedDate where
  date : Dt
  formatted : String
  isValid : Bool
  confidence : ℚ
  deriving Repr, DecidableEq

namespace EnhancedDateParser

/-- The five `DATE_FORMATS` entries, in source order. -/
inductive FmtType where
  | ddMmmYy
  | ddMmmYyyy
  | yyyyMmDd
  | ddMmYyyy
  | mmDdYyyy
  deriving Repr, DecidableEq

/-- `DATE_FORMATS` with each format's selection confidence. -/
def DATE_FORMATS : List (FmtType × ℚ) :=
  [(.ddMmmYy, 0.9), (.ddMmmYyyy, 0.95), (.yyyyMmDd, 0.85), (.ddMmYyyy, 0.7), (.mmDdYyyy, 0.6)]

/-- `MONTH_MAP` lookup on a lower-cased 3-letter month name. -/
def monthIndex (cs : List Char) : Option ℤ :=
  let l := cs.map Char.toLower
  if l = "jan".toList then some 0
  else if l = "feb".toList then some 1
  else if l = "mar".toList then some 2
  else if l = "apr".toList then some 3
  else if l = "may".toList then some 4
  else if l = "jun".toList then some 5
  else if l = "jul".toList then some 6
  else if l = "aug".toList then some 7
  else if l = "sep".toList then some 8
  else if l = "oct".toList then some 9
  else if l = "nov".toList then some 10
  else if l = "dec".toList then some 11
  else none

/-- `\d{1,2}` -/
def digits12 (l : List Char) : Bool :=
  (1 ≤ l.length && l.length ≤ 2) && l.all Char.isDigit

/-- `\d{n}` -/
def digitsExact (n : ℕ) (l : List Char) : Bool :=
  l.length == n && l.all Char.isDigit

/-- `[A-Za-z]{3}` -/
def alpha3 (l : List Char) : Bool :=
  l.length == 3 && l.all Char.isAlpha

/-- The anchored regular expression of each `DATE_FORMATS` entry, returning the
three capture groups.  The separators are single characters absent from the
groups, so matching is equivalent to splitting on the separator. -/
def matchFmt (t : FmtType) (cs : List Char) : Option (List Char × List Char × List Char) :=
  match t with
  | .ddMmmYy =>
    match splitOnChar '-' cs with
    | [a, b, c] => if digits12 a && alpha3 b && digitsExact 2 c then some (a, b, c) else none
    | _ => none
  | .ddMmmYyyy =>
    match splitOnChar '-' cs with
    | [a, b, c] => if digits12 a && alpha3 b && digitsExact 4 c then some (a, b, c) else none
    | _ => none
  | .yyyyMmDd =>
    match splitOnChar '-' cs with
    | [a, b, c] => if digitsExact 4 a && digits12 b && digits12 c then some (a, b, c) else none
    | _ => none
  | .ddMmYyyy =>
    match splitOnChar '/' cs with
    | [a, b, c] => if digits12 a && digits12 b && digitsExact 4 c then some (a, b, c) else none
    | _ => none
  | .mmDdYyyy =>
    match splitOnChar '/' cs with
    | [a, b, c] => if digits12 a && digits12 b && digitsExact 4 c then some (a, b, c) else none
    | _ => none

/-- The `now`-independent part of `parseWithFormat`: numeric decode per format
(with the Y2K rule for 2-digit years), the month-range check, and the calendar
round-trip check.  Returns `some (year, month, day)` when those succeed. -/
def decodeFmt (t : FmtType) (g1 g2 g3 : List Char) : Option (ℤ × ℤ × ℤ) :=
  let dmy : Option (ℤ × ℤ × ℤ) :=
    match t with
    | .ddMmmYy =>
      match monthIndex g2 with
      | some m =>
        let yearRaw : ℤ := (digitsVal g3 : ℤ)
        some ((digitsVal g1 : ℤ), m, if yearRaw < 50 then 2000 + yearRaw else 1900 + yearRaw)
      | none => none
    | .ddMmmYyyy =>
      match monthIndex g2 with
      | some m => some ((digitsVal g1 : ℤ), m, (digitsVal g3 : ℤ))
      | none => none
    | .yyyyMmDd => some ((digitsVal g3 : ℤ), (digitsVal g2 : ℤ) - 1, (digitsVal g1 : ℤ))
    | .ddMmYyyy => some ((digitsVal g1 : ℤ), (digitsVal g2 : ℤ) - 1, (digitsVal g3 : ℤ))
    | .mmDdYyyy => some ((digitsVal g2 : ℤ), (digitsVal g1 : ℤ) - 1, (digitsVal g3 : ℤ))
  match dmy with
  | none => none
  | some (day, month, year) =>
    if (0 ≤ month ∧ month ≤ 11) ∧ ¬(0 ≤ year ∧ year ≤ 99) ∧
        (1 ≤ day ∧ day ≤ daysInMonth year month) then
      some (year, month, day)
    else none

/-- `parseWithFormat(match, type)`: decode and validate; reject dates more than
50 years from the present; on success confidence is set to `0.8` (later
overridden by the caller's spread). -/
def parseWithFormat (now : Dt) (t : FmtType) (g1 g2 g3 : List Char) : ParsedDate :=
  match decodeFmt t g1 g2 g3 with
  | none => ⟨now, isoOfDt now, false, 0⟩
  | some (year, month, day) =>
    if (now.y - year).natAbs ≤ 50 then
      ⟨⟨year, month, day⟩, isoOfDt ⟨year, month, day⟩, true, 0.8⟩
    else ⟨now, isoOfDt now, false, 0⟩

/-- The format loop of `parseDate`: first format whose regex matches *and* whose
`parseWithFormat` result is valid wins; a structural match that fails validation
falls through to later formats (and ultimately the generic fallback). -/
def tryFormats (now : Dt) : List (FmtType × ℚ) → List Char → Option (ParsedDate × FmtType × ℚ)
  | [], _ => none
  | f :: rest, cs =>
    match matchFmt f.1 cs with
    | some g =>
      if (parseWithFormat now f.1 g.1 g.2.1 g.2.2).isValid then
        some (parseWithFormat now f.1 g.1 g.2.1 g.2.2, f)
      else tryFormats now rest cs
    | none => tryFormats now rest cs

/-- Generic `new Date(string)` fallback, modelling the fragment of parsing that
ECMA-262 specifies (the Date Time String Format `YYYY[-MM[-DD]][THH:MM[:SS]]`);
engine-specific legacy formats are not modelled.  The resulting `Date` is
abstracted by the calendar triple as written. -/
def jsNewDate (cs : List Char) : Option Dt :=
  let (datePart, timeOk) : List Char × Bool :=
    match splitOnChar 'T' cs with
    | [d] => (d, true)
    | [d, t] =>
      (d, match splitOnChar ':' t with
          | [h, mi] => digitsExact 2 h && digitsExact 2 mi &&
              digitsVal h ≤ 23 && digitsVal mi ≤ 59
          | [h, mi, s] => digitsExact 2 h && digitsExact 2 mi && digitsExact 2 s &&
              digitsVal h ≤ 23 && digitsVal mi ≤ 59 && digitsVal s ≤ 59
          | _ => false)
    | _ => ([], false)
  if !timeOk then none
  else
    let ymd : Option (ℤ × ℤ × ℤ) :=
      match splitOnChar '-' datePart with
      | [y] => if digitsExact 4 y then some ((digitsVal y : ℤ), 1, 1) else none
      | [y, m] =>
        if digitsExact 4 y && digitsExact 2 m then
          some ((digitsVal y : ℤ), (digitsVal m : ℤ), 1)
        else none
      | [y, m, d] =>
        if digitsExact 4 y && digitsExact 2 m && digitsExact 2 d then
          some ((digitsVal y : ℤ), (digitsVal m : ℤ), (digitsVal d : ℤ))
        else none
      | _ => none
    match ymd with
    | none => none
    | some (y, mo, d) =>
      if (1 ≤ mo ∧ mo ≤ 12) ∧ (1 ≤ d ∧ d ≤ daysInMonth y (mo - 1)) then
        some ⟨y, mo - 1, d⟩
      else none

/-- `EnhancedDateParser.parseDate(dateStr)`, parameterized by the current date
`now` (`new Date()`).  On a structurally parsed date the returned confidence is
the matched format's confidence (the object spread overrides the `0.8` that
`parseWithFormat` put in the record). -/
def parseDate (now : Dt) (s : String) : ParsedDate :=
  if jsTrim s.toList = [] then ⟨now, isoOfDt now, false, 0⟩
  else
    let clean := jsTrim s.toList
    match tryFormats now DATE_FORMATS clean with
    | some r => { r.1 with confidence := r.2.2 }
    | none =>
      match jsNewDate clean with
      | some dt => ⟨dt, isoOfDt dt, true, 0.4⟩
      | none => ⟨now, isoOfDt now, false, 0⟩

theorem tryFormats_mem {now : Dt} {L : List (FmtType × ℚ)} {cs : List Char}
    {r : ParsedDate × FmtType × ℚ} (h : tryFormats now L cs = some r) : r.2 ∈ L := by
  induction L with
  | nil => simp [tryFormats] at h
  | cons f rest ih =>
    rcases hm : matchFmt f.1 cs with _ | g
    · simp only [tryFormats, hm] at h
      exact List.mem_cons_of_mem _ (ih h)
    · simp only [tryFormats, hm] at h
      by_cases hv : (parseWithFormat now f.1 g.1 g.2.1 g.2.2).isValid = true
      · rw [if_pos hv] at h
        obtain rfl : (parseWithFormat now f.1 g.1 g.2.1 g.2.2, f) = r := Option.some.inj h
        exact List.mem_cons_self _ _
      · rw [if_neg hv] at h
        exact List.mem_cons_of_mem _ (ih h)

theorem tryFormats_head_valid {now : Dt} {f : FmtType × ℚ} {rest : List (FmtType × ℚ)}
    {cs : List Char} {g : List Char × List Char × List Char} {pd : ParsedDate}
    (hm : matchFmt f.1 cs = some g)
    (hpw : parseWithFormat now f.1 g.1 g.2.1 g.2.2 = pd)
    (hv : pd.isValid = true) :
    tryFormats now (f :: rest) cs = some (pd, f) := by
  simp [tryFormats, hm, hpw, hv]

theorem tryFormats_head_skip_nomatch {now : Dt} {f : FmtType × ℚ}
    {rest : List (FmtType × ℚ)} {cs : List Char} (hm : matchFmt f.1 cs = none) :
    tryFormats now (f :: rest) cs = tryFormats now rest cs := by
  simp [tryFormats, hm]

theorem tryFormats_head_skip_invalid {now : Dt} {f : FmtType × ℚ}
    {rest : List (FmtType × ℚ)} {cs : List Char} {g : List Char × List Char × List Char}
    {pd : ParsedDate} (hm : matchFmt f.1 cs = some g)
    (hpw : parseWithFormat now f.1 g.1 g.2.1 g.2.2 = pd) (hv : pd.isValid = false) :
    tryFormats now (f :: rest) cs = tryFormats now rest cs := by
  simp [tryFormats, hm, hpw, hv]

theorem tryFormats_all_nomatch {now : Dt} {L : List (FmtType × ℚ)} {cs : List Char}
    (h : ∀ f ∈ L, matchFmt f.1 cs = none) : tryFormats now L cs = none := by
  induction L with
  | nil => rfl
  | cons f rest ih =>
    rw [tryFormats_head_skip_nomatch (h f (List.mem_cons_self _ _))]
    exact ih fun f hf => h f (List.mem_cons_of_mem _ hf)

theorem parseDate_structural {now : Dt} {s : String} {r : ParsedDate × FmtType × ℚ}
    (hne : jsTrim s.toList ≠ [])
    (h : tryFormats now DATE_FORMATS (jsTrim s.toList) = some r) :
    parseDate now s = { r.1 with confidence := r.2.2 } := by
  simp only [parseDate, if_neg hne, h]

theorem parseDate_fallback {now : Dt} {s : String} {dt : Dt}
    (hne : jsTrim s.toList ≠ [])
    (h : tryFormats now DATE_FORMATS (jsTrim s.toList) = none)
    (hj : jsNewDate (jsTrim s.toList) = some dt) :
    parseDate now s = ⟨dt, isoOfDt dt, true, 0.4⟩ := by
  simp only [parseDate, if_neg hne, h, hj]

end EnhancedDateParser

open EnhancedDateParser in
/-- C3 (amended): on a successful structural parse, `parseDate` returns the
*matched format's* confidence (0.9 / 0.95 / 0.85 / 0.7 / 0.6), never the fixed
`0.8` that `parseWithFormat` writes into the record — the object spread
`{ ...parsedDate, confidence: format.confidence }` overrides it. -/
theorem C3_parseDate_structural_confidence (now : Dt) (s : String)
    (r : ParsedDate × FmtType × ℚ) (hne : jsTrim s.toList ≠ [])
    (h : tryFormats now DATE_FORMATS (jsTrim s.toList) = some r) :
    (parseDate now s).confidence = r.2.2 ∧ r.2 ∈ DATE_FORMATS ∧
      (parseDate now s).confidence ≠ 0.8 := by
  have hmem := tryFormats_mem h
  have heq := parseDate_structural hne h
  refine ⟨by rw [heq], hmem, ?_⟩
  rw [heq]
  simp only [DATE_FORMATS, List.mem_cons, List.not_mem_nil, or_false] at hmem
  rcases hmem with h1 | h1 | h1 | h1 | h1 <;> simp only [h1] <;> norm_num

open EnhancedDateParser in
/-- Witness for C3 (amended) at `"2025-07-11"` with today = 2026-10-12. -/
theorem C3_parseDate_structural_confidence_witness :
    (parseDate ⟨2026, 9, 12⟩ "2025-07-11").confidence = 0.85 ∧
      ((FmtType.yyyyMmDd, (0.85 : ℚ)) : FmtType × ℚ) ∈ DATE_FORMATS ∧
      (parseDate ⟨2026, 9, 12⟩ "2025-07-11").confidence ≠ 0.8 :=
  C3_parseDate_structural_confidence ⟨2026, 9, 12⟩ "2025-07-11"
    (⟨⟨2025, 6, 11⟩, "2025-07-11", true, 0.8⟩, (.yyyyMmDd, 0.85)) (by decide) (by decide)

open EnhancedDateParser in
/-- C3 counterexample: for `"2025-07-11"` (with the current date in 2026) the
structural parse succeeds but the returned confidence is `0.85`, not the claimed
fixed `0.8`. -/
theorem C3_counterexample_iso_confidence :
    (parseDate ⟨2026, 9, 12⟩ "2025-07-11").isValid = true ∧
      (parseDate ⟨2026, 9, 12⟩ "2025-07-11").confidence = 0.85 ∧
      (parseDate ⟨2026, 9, 12⟩ "2025-07-11").confidence ≠ 0.8 := by
  refine ⟨by decide, by decide, by decide⟩

open EnhancedDateParser in
/-- C6: each of the four literals `"11-Jul-25"`, `"11-Jul-2025"`, `"2025-07-11"`,
`"11/07/2025"` parses to the calendar date July 11, 2025 with normalized output
`"2025-07-11"`, `isValid = true` and confidence strictly greater than 0 (as long
as the current year is within the 50-year plausibility bound of 2025). -/
theorem C6_parseDate_format_coverage (now : Dt) (h : (now.y - 2025).natAbs ≤ 50) :
    ∀ s ∈ ["11-Jul-25", "11-Jul-2025", "2025-07-11", "11/07/2025"],
      (parseDate now s).date = ⟨2025, 6, 11⟩ ∧
      (parseDate now s).formatted = "2025-07-11" ∧
      (parseDate now s).isValid = true ∧
      0 < (parseDate now s).confidence := by
  have pw : ∀ t g1 g2 g3, decodeFmt t g1 g2 g3 = some (2025, 6, 11) →
      parseWithFormat now t g1 g2 g3 = ⟨⟨2025, 6, 11⟩, "2025-07-11", true, 0.8⟩ := by
    intro t g1 g2 g3 hd
    simp only [parseWithFormat, hd, if_pos h]
    rfl
  intro s hs
  simp only [List.mem_cons, List.not_mem_nil, or_false] at hs
  rcases hs with rfl | rfl | rfl | rfl
  · rw [parseDate_structural (by decide)
      (tryFormats_head_valid (g := ("11".toList, "Jul".toList, "25".toList)) (by decide)
        (pw _ _ _ _ (by decide)) rfl)]
    exact ⟨rfl, rfl, rfl, by norm_num⟩
  · rw [parseDate_structural (by decide)
      (by
        rw [show DATE_FORMATS = (FmtType.ddMmmYy, (0.9 : ℚ)) :: DATE_FORMATS.tail from rfl,
          tryFormats_head_skip_nomatch (by decide)]
        exact tryFormats_head_valid (g := ("11".toList, "Jul".toList, "2025".toList))
          (by decide) (pw _ _ _ _ (by decide)) rfl)]
    exact ⟨rfl, rfl, rfl, by norm_num⟩
  · rw [parseDate_structural (by decide)
      (by
        rw [show DATE_FORMATS = (FmtType.ddMmmYy, (0.9 : ℚ)) :: DATE_FORMATS.tail from rfl,
          tryFormats_head_skip_nomatch (by decide),
          show DATE_FORMATS.tail = (FmtType.ddMmmYyyy, (0.95 : ℚ)) :: DATE_FORMATS.tail.tail
            from rfl,
          tryFormats_head_skip_nomatch (by decide)]
        exact tryFormats_head_valid (g := ("2025".toList, "07".toList, "11".toList))
          (by decide) (pw _ _ _ _ (by decide)) rfl)]
    exact ⟨rfl, rfl, rfl, by norm_num⟩
  · rw [parseDate_structural (by decide)
      (by
        rw [show DATE_FORMATS = (FmtType.ddMmmYy, (0.9 : ℚ)) :: DATE_FORMATS.tail from rfl,
          tryFormats_head_skip_nomatch (by decide),
          show DATE_FORMATS.tail = (FmtType.ddMmmYyyy, (0.95 : ℚ)) :: DATE_FORMATS.tail.tail
            from rfl,
          tryFormats_head_skip_nomatch (by decide),
          show DATE_FORMATS.tail.tail =
            (FmtType.yyyyMmDd, (0.85 : ℚ)) :: DATE_FORMATS.tail.tail.tail from rfl,
          tryFormats_head_skip_nomatch (by decide)]
        exact tryFormats_head_valid (g := ("11".toList, "07".toList, "2025".toList))
          (by decide) (pw _ _ _ _ (by decide)) rfl)]
    exact ⟨rfl, rfl, rfl, by norm_num⟩

open EnhancedDateParser in
/-- Witness for C6 with today = 2026-10-12 and the literal `"2025-07-11"`. -/
theorem C6_parseDate_format_coverage_witness :
    (((2026 : ℤ) - 2025).natAbs ≤ 50) ∧
    (parseDate ⟨2026, 9, 12⟩ "2025-07-11").date = ⟨2025, 6, 11⟩ ∧
    (parseDate ⟨2026, 9, 12⟩ "2025-07-11").formatted = "2025-07-11" ∧
    (parseDate ⟨2026, 9, 12⟩ "2025-07-11").isValid = true ∧
    0 < (parseDate ⟨2026, 9, 12⟩ "2025-07-11").confidence :=
  ⟨by decide,
    C6_parseDate_format_coverage ⟨2026, 9, 12⟩ (by decide) "2025-07-11" (by simp)⟩

open EnhancedDateParser in
/-- C10: the 50-years-from-present plausibility bound is enforced only on the
structural-format path.  `"2090-01-01T00:00:00"` matches none of the structural
formats, yet the generic fallback accepts it with `isValid = true` and confidence
`0.4`, although the structurally-matched equivalent `"2090-01-01"` is rejected by
`parseWithFormat` as too far from the present — and even that rejection then falls
through to the generic fallback, which accepts the date at confidence `0.4`. -/
theorem C10_plausibility_bound_only_structural (now : Dt) (h : now.y < 2040) :
    (∀ f ∈ DATE_FORMATS, matchFmt f.1 (jsTrim "2090-01-01T00:00:00".toList) = none) ∧
    parseDate now "2090-01-01T00:00:00" = ⟨⟨2090, 0, 1⟩, "2090-01-01", true, 0.4⟩ ∧
    (parseWithFormat now .yyyyMmDd "2090".toList "01".toList "01".toList).isValid = false ∧
    parseDate now "2090-01-01" = ⟨⟨2090, 0, 1⟩, "2090-01-01", true, 0.4⟩ := by
  have hb : ¬((now.y - 2090).natAbs ≤ 50) := by omega
  have hpw : parseWithFormat now .yyyyMmDd "2090".toList "01".toList "01".toList =
      ⟨now, isoOfDt now, false, 0⟩ := by
    simp only [parseWithFormat,
      show decodeFmt FmtType.yyyyMmDd "2090".toList "01".toList "01".toList =
        some (2090, 0, 1) from by decide, if_neg hb]
  refine ⟨by decide, ?_, by rw [hpw], ?_⟩
  · exact parseDate_fallback (by decide) (tryFormats_all_nomatch (by decide)) (by decide)
  · refine parseDate_fallback (by decide) ?_ (by decide)
    rw [show DATE_FORMATS = (FmtType.ddMmmYy, (0.9 : ℚ)) :: DATE_FORMATS.tail from rfl,
      tryFormats_head_skip_nomatch (by decide),
      show DATE_FORMATS.tail = (FmtType.ddMmmYyyy, (0.95 : ℚ)) :: DATE_FORMATS.tail.tail
        from rfl,
      tryFormats_head_skip_nomatch (by decide),
      show DATE_FORMATS.tail.tail =
        (FmtType.yyyyMmDd, (0.85 : ℚ)) :: DATE_FORMATS.tail.tail.tail from rfl,
      tryFormats_head_skip_invalid (g := ("2090".toList, "01".toList, "01".toList))
        (by decide) hpw rfl]
    exact tryFormats_all_nomatch (by decide)

open EnhancedDateParser in
/-- Witness for C10 with today = 2026-10-12. -/
theorem C10_plausibility_bound_only_structural_witness :
    ((2026 : ℤ) < 2040) ∧
    parseDate ⟨2026, 9, 12⟩ "2090-01-01T00:00:00" = ⟨⟨2090, 0, 1⟩, "2090-01-01", true, 0.4⟩ ∧
    (parseWithFormat ⟨2026, 9, 12⟩ .yyyyMmDd "2090".toList "01".toList "01".toList).isValid
      = false ∧
    parseDate ⟨2026, 9, 12⟩ "2090-01-01" = ⟨⟨2090, 0, 1⟩, "2090-01-01", true, 0.4⟩ := by
  have h := C10_plausibility_bound_only_structural ⟨2026, 9, 12⟩ (by decide)
  exact ⟨by decide, h.2.1, h.2.2.1, h.2.2.2⟩

/-! ## The ingestion pipeline (most advanced `FileUpload` variant)

`enhancedDataFilling` reads each mapped cell with `parseFloat(...) || 0` and
branches on the raw truthiness of some cells.  A raw cell is therefore abstracted
by the pair of observations the code makes of it: its JS truthiness and its
`parseFloat` value (`none` for `NaN`); an absent or unmapped column behaves as
`⟨false, none⟩`.  The raw date string is abstracted by its sort timestamp
(`new Date(str).getTime()`), which is all the pipeline uses it for; prices are
carried as exact rationals; output cells that can hold the string `"NaN"` (or
`"Infinity"`) are `Option ℚ` with `none` for the non-finite case.  Each
`Math.random()` draw of a row is a separate component of a `Rands` record, every
component lying in `[0, 1)`. -/

/-- A raw mapped cell: JS truthiness plus the `parseFloat` value (`none` = `NaN`). -/
structure RawCell where
  truthy : Bool
  num : Option ℚ
  deriving Repr, DecidableEq

/-- An absent cell (or unmapped column): falsy and unparseable. -/
def absentCell : RawCell := ⟨false, none⟩

/-- `parseFloat(row[mappings.f]) || 0`. -/
def parseFloatOr0 (c : RawCell) : ℚ := c.num.getD 0

/-- One raw row, keyed by canonical field (the column mapping is applied, so each
canonical field sees the cell of the header it was mapped to, or an absent cell). -/
structure RawRow where
  dateCell : Option ℤ
  openCell : RawCell
  highCell : RawCell
  lowCell : RawCell
  closeCell : RawCell
  prevCloseCell : RawCell
  vwapCell : RawCell
  volumeCell : RawCell
  valueCell : RawCell
  tradesCell : RawCell
  w52HCell : RawCell
  w52LCell : RawCell
  deriving Repr, DecidableEq

/-- The `Math.random()` draws one row of `enhancedDataFilling` can consume. -/
structure Rands where
  gap : ℚ
  high : ℚ
  low : ℚ
  open2 : ℚ
  high2 : ℚ
  low2 : ℚ
  prevEst : ℚ
  vol : ℚ
  lot : ℚ
  w52h : ℚ
  w52l : ℚ
  deriving Repr, DecidableEq

/-- Every draw lies in `[0, 1)` (the range of `Math.random()`). -/
def RandsOk (r : Rands) : Prop :=
  (0 ≤ r.gap ∧ r.gap < 1) ∧ (0 ≤ r.high ∧ r.high < 1) ∧ (0 ≤ r.low ∧ r.low < 1) ∧
  (0 ≤ r.open2 ∧ r.open2 < 1) ∧ (0 ≤ r.high2 ∧ r.high2 < 1) ∧ (0 ≤ r.low2 ∧ r.low2 < 1) ∧
  (0 ≤ r.prevEst ∧ r.prevEst < 1) ∧ (0 ≤ r.vol ∧ r.vol < 1) ∧ (0 ≤ r.lot ∧ r.lot < 1) ∧
  (0 ≤ r.w52h ∧ r.w52h < 1) ∧ (0 ≤ r.w52l ∧ r.w52l < 1)

/-- A normalized output row (`NormalizedCSVRow`); numeric string fields carry
their numeric value, `Option ℚ` fields can hold the string `"NaN"` (`none`). -/
structure NRow where
  dateKey : ℤ
  OPEN : ℚ
  HIGH : ℚ
  LOW : ℚ
  close : ℚ
  ltp : ℚ
  prevClose : Option ℚ
  vwap : Option ℚ
  volume : Option ℚ
  value : Option ℚ
  trades : Option ℚ
  w52H : Option ℚ
  w52L : Option ℚ
  deriving Repr, DecidableEq

namespace FileUpload

/-- `const basePrice = open || high || low || 100` (first nonzero, else 100). -/
def basePrice (row : RawRow) : ℚ :=
  if parseFloatOr0 row.openCell ≠ 0 then parseFloatOr0 row.openCell
  else if parseFloatOr0 row.highCell ≠ 0 then parseFloatOr0 row.highCell
  else if parseFloatOr0 row.lowCell ≠ 0 then parseFloatOr0 row.lowCell
  else 100

/-- `normalizedRow.close`: the parsed close when positive, else the base price. -/
def closeOut (row : RawRow) : ℚ :=
  if 0 < parseFloatOr0 row.closeCell then toFixed2 (parseFloatOr0 row.closeCell)
  else toFixed2 (basePrice row)

/-- `normalizedRow.ltp` (assigned alongside `close` with the same value). -/
def ltpOut (row : RawRow) : ℚ :=
  if 0 < parseFloatOr0 row.closeCell then toFixed2 (parseFloatOr0 row.closeCell)
  else toFixed2 (basePrice row)

/-- `normalizedRow.OPEN`: parsed open, or `close × (1 + gap)` with `gap ∈ ±2%`,
or `basePrice × (0.99 + 0.02·rand)` when there is no positive close. -/
def openOut (r : Rands) (row : RawRow) : ℚ :=
  if 0 < parseFloatOr0 row.closeCell then
    (if parseFloatOr0 row.openCell = 0 then
      toFixed2 (parseFloatOr0 row.closeCell * (1 + (r.gap - 0.5) * 0.04))
     else toFixed2 (parseFloatOr0 row.openCell))
  else toFixed2 (basePrice row * (0.99 + r.open2 * 0.02))

/-- `normalizedRow.HIGH`: the raw high only if it is at least
`baseHigh = max(OPEN, close)`; otherwise resynthesized above `baseHigh`. -/
def highOut (r : Rands) (row : RawRow) : ℚ :=
  if 0 < parseFloatOr0 row.closeCell then
    (if parseFloatOr0 row.highCell = 0 ∨
        parseFloatOr0 row.highCell < max (openOut r row) (parseFloatOr0 row.closeCell) then
      toFixed2 (max (openOut r row) (parseFloatOr0 row.closeCell) * (1 + r.high * 0.03))
     else toFixed2 (parseFloatOr0 row.highCell))
  else toFixed2 (basePrice row * (1.01 + r.high2 * 0.02))

/-- `normalizedRow.LOW`: the raw low only if it is at most
`baseLow = min(OPEN, close)`; otherwise resynthesized below `baseLow`. -/
def lowOut (r : Rands) (row : RawRow) : ℚ :=
  if 0 < parseFloatOr0 row.closeCell then
    (if parseFloatOr0 row.lowCell = 0 ∨
        min (openOut r row) (parseFloatOr0 row.closeCell) < parseFloatOr0 row.lowCell then
      toFixed2 (min (openOut r row) (parseFloatOr0 row.closeCell) * (1 - r.low * 0.03))
     else toFixed2 (parseFloatOr0 row.lowCell))
  else toFixed2 (basePrice row * (0.97 + r.low2 * 0.02))

/-- `normalizedRow.vwap`: the raw cell re-formatted when truthy (non-numeric text
yields `"NaN"`), else `(HIGH + LOW + 2·close) / 4`. -/
def vwapOut (r : Rands) (row : RawRow) : Option ℚ :=
  if row.vwapCell.truthy then row.vwapCell.num.map toFixed2
  else some (toFixed2 ((highOut r row + lowOut r row + closeOut row * 2) / 4))

/-- `normalizedRow['PREV. CLOSE']`: for a non-first row with a mapped prevClose
column, the raw cell is kept verbatim when truthy, else the previous row's raw
close is parsed and re-formatted, else the current normalized close; otherwise
the parsed prevClose or an estimate `close × (0.98 + 0.04·rand)`. -/
def prevCloseOut (r : Rands) (pm : Bool) (prev : Option RawRow) (row : RawRow) : Option ℚ :=
  match prev, pm with
  | some pr, true =>
    if row.prevCloseCell.truthy then row.prevCloseCell.num
    else if pr.closeCell.truthy then pr.closeCell.num.map toFixed2
    else some (toFixed2 (closeOut row))
  | _, _ =>
    some (toFixed2 (if parseFloatOr0 row.prevCloseCell ≠ 0 then parseFloatOr0 row.prevCloseCell
      else closeOut row * (0.98 + r.prevEst * 0.04)))

/-- `normalizedRow.VOLUME`: the parsed volume when nonzero, else a synthetic
volume scaled by realized volatility against the (parsed) previous close; a
non-finite previous close propagates (`NaN`/`Infinity` volume). -/
def volumeOut (r : Rands) (pm : Bool) (prev : Option RawRow) (row : RawRow) : Option ℚ :=
  if parseFloatOr0 row.volumeCell = 0 then
    match prevCloseOut r pm prev row with
    | some p =>
      if p = 0 then none
      else some ((⌊(50000 + (|closeOut row - p| / p) * 500000) * (0.5 + r.vol)⌋ : ℤ) : ℚ)
    | none => none
  else some (parseFloatOr0 row.volumeCell)

/-- `normalizedRow.VALUE`: raw cell re-formatted when truthy, else `volume × vwap`. -/
def valueOut (r : Rands) (pm : Bool) (prev : Option RawRow) (row : RawRow) : Option ℚ :=
  if row.valueCell.truthy then row.valueCell.num.map toFixed2
  else
    match volumeOut r pm prev row, vwapOut r row with
    | some v, some w => some (toFixed2 (v * w))
    | _, _ => none

/-- `normalizedRow['No of trades']`: the raw cell kept verbatim when truthy, else
`Math.floor(volume / avgTradeSize)` with `avgTradeSize ∈ [50, 250)`. -/
def tradesOut (r : Rands) (pm : Bool) (prev : Option RawRow) (row : RawRow) : Option ℚ :=
  if row.tradesCell.truthy then row.tradesCell.num
  else
    match volumeOut r pm prev row with
    | some v => some ((⌊v / (50 + r.lot * 200)⌋ : ℤ) : ℚ)
    | none => none

/-- `normalizedRow['52W H']`: raw cell re-formatted when truthy, else
`close / ratio` with `ratio ∈ [0.7, 1.0)`. -/
def w52HOut (r : Rands) (row : RawRow) : Option ℚ :=
  if row.w52HCell.truthy then row.w52HCell.num.map toFixed2
  else some (toFixed2 (closeOut row / (0.7 + r.w52h * 0.3)))

/-- `normalizedRow['52W L']`: raw cell re-formatted when truthy, else
`close / ratio` with `ratio ∈ [1.0, 1.5)`. -/
def w52LOut (r : Rands) (row : RawRow) : Option ℚ :=
  if row.w52LCell.truthy then row.w52LCell.num.map toFixed2
  else some (toFixed2 (closeOut row / (1 + r.w52l * 0.5)))

/-- One row of `enhancedDataFilling`: assemble the normalized row (the synthetic
back-dated key is used when the raw date cell is falsy). -/
def fillRow (r : Rands) (synthKey : ℤ) (pm : Bool) (prev : Option RawRow) (row : RawRow) :
    NRow where
  dateKey := row.dateCell.getD synthKey
  OPEN := openOut r row
  HIGH := highOut r row
  LOW := lowOut r row
  close := closeOut row
  ltp := ltpOut row
  prevClose := prevCloseOut r pm prev row
  vwap := vwapOut r row
  volume := volumeOut r pm prev row
  value := valueOut r pm prev row
  trades := tradesOut r pm prev row
  w52H := w52HOut r row
  w52L := w52LOut r row

/-- `enhancedDataFilling(data, mappings)`: map over the rows with their index;
row `i` sees the `i`-th random draws, the synthetic date
`now − (N − i)` days, and row `i − 1` for previous-close continuity. -/
def enhancedDataFilling (pm : Bool) (rnd : ℕ → Rands) (nowMs : ℤ) (data : List RawRow) :
    List NRow :=
  (List.finRange data.length).map fun (i : Fin data.length) =>
    fillRow (rnd (i : ℕ)) (nowMs - ((data.length : ℤ) - ((i : ℕ) : ℤ)) * 86400000) pm
      (if (i : ℕ) = 0 then none else data.get? ((i : ℕ) - 1)) (data.get i)

/-- `validateAndProcessData` (after reading and column mapping): reject an empty
file, reconcile, sort by date, and reject fewer than 5 rows. -/
def validateAndProcessData (pm : Bool) (rnd : ℕ → Rands) (nowMs : ℤ) (data : List RawRow) :
    Except String (List NRow) :=
  if data.length = 0 then .error "File is empty or contains no valid data"
  else if (sortJs (fun a b => decide (a.dateKey ≤ b.dateKey))
      (enhancedDataFilling pm rnd nowMs data)).length < 5 then
    .error "Insufficient data. Please provide at least 5 rows for meaningful analysis."
  else .ok (sortJs (fun a b => decide (a.dateKey ≤ b.dateKey))
    (enhancedDataFilling pm rnd nowMs data))

/-- The OHLC containment invariant of a normalized row. -/
def Containment (nr : NRow) : Prop :=
  nr.OPEN ≤ nr.HIGH ∧ nr.close ≤ nr.HIGH ∧ nr.LOW ≤ nr.OPEN ∧ nr.LOW ≤ nr.close

theorem basePrice_pos (row : RawRow)
    (ho : 0 ≤ parseFloatOr0 row.openCell) (hh : 0 ≤ parseFloatOr0 row.highCell)
    (hl : 0 ≤ parseFloatOr0 row.lowCell) : 0 < basePrice row := by
  unfold basePrice
  split_ifs with h1 h2 h3
  · exact lt_of_le_of_ne ho (Ne.symm h1)
  · exact lt_of_le_of_ne hh (Ne.symm h2)
  · exact lt_of_le_of_ne hl (Ne.symm h3)
  · norm_num

set_option maxHeartbeats 2000000 in
/-- Containment holds for every reconciled row whose parsed open/high/low/close
inputs are nonnegative (zero meaning missing). -/
theorem fillRow_containment (r : Rands) (k : ℤ) (pm : Bool) (prev : Option RawRow)
    (row : RawRow) (hr : RandsOk r)
    (ho : 0 ≤ parseFloatOr0 row.openCell) (hh : 0 ≤ parseFloatOr0 row.highCell)
    (hl : 0 ≤ parseFloatOr0 row.lowCell) (hc : 0 ≤ parseFloatOr0 row.closeCell) :
    Containment (fillRow r k pm prev row) := by
  obtain ⟨⟨hg0, hg1⟩, ⟨hrh0, hrh1⟩, ⟨hrl0, hrl1⟩, ⟨ho20, ho21⟩, ⟨hh20, hh21⟩,
    ⟨hl20, hl21⟩, _⟩ := hr
  have hfill : (fillRow r k pm prev row).OPEN = openOut r row ∧
      (fillRow r k pm prev row).HIGH = highOut r row ∧
      (fillRow r k pm prev row).LOW = lowOut r row ∧
      (fillRow r k pm prev row).close = closeOut row := ⟨rfl, rfl, rfl, rfl⟩
  unfold Containment
  rw [hfill.1, hfill.2.1, hfill.2.2.1, hfill.2.2.2]
  by_cases hcpos : 0 < parseFloatOr0 row.closeCell
  · -- close > 0: anchor on the parsed close
    have hCe : closeOut row = toFixed2 (parseFloatOr0 row.closeCell) := by
      simp [closeOut, hcpos]
    obtain ⟨x, hOx, hx0⟩ : ∃ x, openOut r row = toFixed2 x ∧ 0 ≤ x := by
      by_cases ho0 : parseFloatOr0 row.openCell = 0
      · exact ⟨parseFloatOr0 row.closeCell * (1 + (r.gap - 0.5) * 0.04),
          by simp [openOut, hcpos, ho0], by nlinarith⟩
      · exact ⟨parseFloatOr0 row.openCell, by simp [openOut, hcpos, ho0], ho⟩
    have hOnn : 0 ≤ openOut r row := hOx ▸ toFixed2_nonneg hx0
    have hOidem : toFixed2 (openOut r row) = openOut r row := by
      rw [hOx, toFixed2_idem]
    have hBnn : 0 ≤ max (openOut r row) (parseFloatOr0 row.closeCell) :=
      le_trans hc (le_max_right _ _)
    have hbnn : 0 ≤ min (openOut r row) (parseFloatOr0 row.closeCell) :=
      le_min hOnn hc
    have hOH : openOut r row ≤ highOut r row ∧
        toFixed2 (parseFloatOr0 row.closeCell) ≤ highOut r row := by
      by_cases hkeep : parseFloatOr0 row.highCell = 0 ∨
          parseFloatOr0 row.highCell <
            max (openOut r row) (parseFloatOr0 row.closeCell)
      · have hHe : highOut r row =
            toFixed2 (max (openOut r row) (parseFloatOr0 row.closeCell)
              * (1 + r.high * 0.03)) := by
          simp only [highOut, if_pos hcpos, if_pos hkeep]
        have hBle : max (openOut r row) (parseFloatOr0 row.closeCell) ≤
            max (openOut r row) (parseFloatOr0 row.closeCell) * (1 + r.high * 0.03) := by
          nlinarith
        constructor
        · have h1 := toFixed2_mono (le_trans (le_max_left (openOut r row)
            (parseFloatOr0 row.closeCell)) hBle)
          rw [hOidem] at h1
          rw [hHe]
          exact h1
        · rw [hHe]
          exact toFixed2_mono (le_trans (le_max_right _ _) hBle)
      · have hHe : highOut r row = toFixed2 (parseFloatOr0 row.highCell) := by
          simp only [highOut, if_pos hcpos, if_neg hkeep]
        push_neg at hkeep
        constructor
        · have h1 := toFixed2_mono (le_trans (le_max_left (openOut r row)
            (parseFloatOr0 row.closeCell)) hkeep.2)
          rw [hOidem] at h1
          rw [hHe]
          exact h1
        · rw [hHe]
          exact toFixed2_mono (le_trans (le_max_right _ _) hkeep.2)
    have hLO : lowOut r row ≤ openOut r row ∧
        lowOut r row ≤ toFixed2 (parseFloatOr0 row.closeCell) := by
      by_cases hkeep : parseFloatOr0 row.lowCell = 0 ∨
          min (openOut r row) (parseFloatOr0 row.closeCell) < parseFloatOr0 row.lowCell
      · have hLe : lowOut r row =
            toFixed2 (min (openOut r row) (parseFloatOr0 row.closeCell)
              * (1 - r.low * 0.03)) := by
          simp only [lowOut, if_pos hcpos, if_pos hkeep]
        have hble : min (openOut r row) (parseFloatOr0 row.closeCell) * (1 - r.low * 0.03) ≤
            min (openOut r row) (parseFloatOr0 row.closeCell) := by
          nlinarith
        constructor
        · have h1 := toFixed2_mono (le_trans hble (min_le_left (openOut r row)
            (parseFloatOr0 row.closeCell)))
          rw [hOidem] at h1
          rw [hLe]
          exact h1
        · rw [hLe]
          exact toFixed2_mono (le_trans hble (min_le_right _ _))
      · have hLe : lowOut r row = toFixed2 (parseFloatOr0 row.lowCell) := by
          simp only [lowOut, if_pos hcpos, if_neg hkeep]
        push_neg at hkeep
        constructor
        · have h1 := toFixed2_mono (le_trans hkeep.2 (min_le_left (openOut r row)
            (parseFloatOr0 row.closeCell)))
          rw [hOidem] at h1
          rw [hLe]
          exact h1
        · rw [hLe]
          exact toFixed2_mono (le_trans hkeep.2 (min_le_right _ _))
    exact ⟨hOH.1, by rw [hCe]; exact hOH.2, hLO.1, by rw [hCe]; exact hLO.2⟩
  · -- no positive close: everything is synthesized around basePrice
    have hbp : 0 < basePrice row := basePrice_pos row ho hh hl
    have hCe : closeOut row = toFixed2 (basePrice row) := by
      simp [closeOut, hcpos]
    have hOe : openOut r row = toFixed2 (basePrice row * (0.99 + r.open2 * 0.02)) := by
      simp [openOut, hcpos]
    have hHe : highOut r row = toFixed2 (basePrice row * (1.01 + r.high2 * 0.02)) := by
      simp [highOut, hcpos]
    have hLe : lowOut r row = toFixed2 (basePrice row * (0.97 + r.low2 * 0.02)) := by
      simp [lowOut, hcpos]
    rw [hCe, hOe, hHe, hLe]
    refine ⟨toFixed2_mono (by nlinarith), toFixed2_mono (by nlinarith),
      toFixed2_mono (by nlinarith), toFixed2_mono (by nlinarith)⟩

/-- A price cell is either missing (parses to 0) or parses to at least one cent. -/
def PriceCellOk (cell : RawCell) : Prop :=
  parseFloatOr0 cell = 0 ∨ 1/100 ≤ parseFloatOr0 cell

/-- A truthy cell parses to at least one cent. -/
def PosIfTruthy (cell : RawCell) : Prop :=
  cell.truthy = true → ∃ q, cell.num = some q ∧ 1/100 ≤ q

/-- A truthy cell parses to a nonnegative number. -/
def NonnegIfTruthy (cell : RawCell) : Prop :=
  cell.truthy = true → ∃ q, cell.num = some q ∧ 0 ≤ q

/-- Well-formedness of one raw row for the positivity theorem: price cells are
missing or at least one cent, present prevClose/vwap/close cells parse to at
least one cent, the volume parses nonnegatively, and a present trades cell
parses to a nonnegative count. -/
def RowOk (row : RawRow) : Prop :=
  PriceCellOk row.openCell ∧ PriceCellOk row.highCell ∧ PriceCellOk row.lowCell ∧
  PriceCellOk row.closeCell ∧ PriceCellOk row.prevCloseCell ∧
  PosIfTruthy row.prevCloseCell ∧ PosIfTruthy row.vwapCell ∧ PosIfTruthy row.closeCell ∧
  0 ≤ parseFloatOr0 row.volumeCell ∧ NonnegIfTruthy row.tradesCell

set_option maxHeartbeats 2000000 in
/-- Positivity of the reconciled fields of one row, under `RowOk` inputs: the
five price strings and the previous close, vwap and volume are strictly
positive; the trade count is a nonnegative number (it can be zero). -/
theorem fillRow_positive (r : Rands) (k : ℤ) (pm : Bool) (prev : Option RawRow)
    (row : RawRow) (hr : RandsOk r) (hrow : RowOk row)
    (hprev : ∀ pr, prev = some pr → PosIfTruthy pr.closeCell) :
    0 < (fillRow r k pm prev row).OPEN ∧ 0 < (fillRow r k pm prev row).HIGH ∧
    0 < (fillRow r k pm prev row).LOW ∧ 0 < (fillRow r k pm prev row).close ∧
    0 < (fillRow r k pm prev row).ltp ∧
    (∃ p, (fillRow r k pm prev row).prevClose = some p ∧ 0 < p) ∧
    (∃ w, (fillRow r k pm prev row).vwap = some w ∧ 0 < w) ∧
    (∃ v, (fillRow r k pm prev row).volume = some v ∧ 0 < v) ∧
    (∃ t, (fillRow r k pm prev row).trades = some t ∧ 0 ≤ t) := by
  obtain ⟨⟨hg0, hg1⟩, ⟨hrh0, hrh1⟩, ⟨hrl0, hrl1⟩, ⟨ho20, ho21⟩, ⟨hh20, hh21⟩,
    ⟨hl20, hl21⟩, ⟨hpe0, hpe1⟩, ⟨hv0, hv1⟩, ⟨hlot0, hlot1⟩, _⟩ := hr
  obtain ⟨hOk, hHk, hLk, hCk, hPk, hPt, hVt, hCt, hVol, hTt⟩ := hrow
  have hcent : (0 : ℚ) < 1/100 := by norm_num
  -- base price is at least one cent
  have hbp : 1/100 ≤ basePrice row := by
    unfold basePrice
    split_ifs with h1 h2 h3
    · exact hOk.resolve_left h1
    · exact hHk.resolve_left h2
    · exact hLk.resolve_left h3
    · norm_num
  -- normalized close
  have hclose : 1/100 ≤ closeOut row := by
    unfold closeOut
    split_ifs with h1
    · exact toFixed2_ge_hundredth_of (by
        have := hCk.resolve_left (by intro h0; rw [h0] at h1; exact lt_irrefl 0 h1)
        linarith)
    · exact toFixed2_ge_hundredth_of (by linarith)
  -- normalized open
  have hopen : 1/100 ≤ openOut r row := by
    unfold openOut
    split_ifs with h1 h2
    · have hcq := hCk.resolve_left (by intro h0; rw [h0] at h1; exact lt_irrefl 0 h1)
      exact toFixed2_ge_hundredth_of (by nlinarith)
    · exact toFixed2_ge_hundredth_of (by
        have := hOk.resolve_left h2
        linarith)
    · exact toFixed2_ge_hundredth_of (by nlinarith)
  -- normalized high
  have hhigh : 1/100 ≤ highOut r row := by
    unfold highOut
    split_ifs with h1 h2
    · have hcq := hCk.resolve_left (by intro h0; rw [h0] at h1; exact lt_irrefl 0 h1)
      have hB : parseFloatOr0 row.closeCell ≤
          max (openOut r row) (parseFloatOr0 row.closeCell) := le_max_right _ _
      exact toFixed2_ge_hundredth_of (by nlinarith)
    · push_neg at h2
      have hcq := hCk.resolve_left (by intro h0; rw [h0] at h1; exact lt_irrefl 0 h1)
      have hB : parseFloatOr0 row.closeCell ≤
          max (openOut r row) (parseFloatOr0 row.closeCell) := le_max_right _ _
      exact toFixed2_ge_hundredth_of (by
        have := le_trans hB h2.2
        linarith)
    · exact toFixed2_ge_hundredth_of (by nlinarith)
  -- normalized low
  have hlow : 1/100 ≤ lowOut r row := by
    unfold lowOut
    split_ifs with h1 h2
    · have hcq := hCk.resolve_left (by intro h0; rw [h0] at h1; exact lt_irrefl 0 h1)
      have hb : 1/100 ≤ min (openOut r row) (parseFloatOr0 row.closeCell) :=
        le_min hopen hcq
      exact toFixed2_ge_hundredth_of (by nlinarith)
    · push_neg at h2
      exact toFixed2_ge_hundredth_of (by
        have := hLk.resolve_left h2.1
        linarith)
    · exact toFixed2_ge_hundredth_of (by nlinarith)
  -- previous close
  have hprevC : ∃ p, prevCloseOut r pm prev row = some p ∧ 1/100 ≤ p := by
    rcases prev with _ | pr
    · refine ⟨_, rfl, ?_⟩
      split_ifs with h1
      · exact toFixed2_ge_hundredth_of (by
          have := hPk.resolve_left h1
          linarith)
      · exact toFixed2_ge_hundredth_of (by nlinarith)
    · cases pm with
      | false =>
        refine ⟨_, rfl, ?_⟩
        split_ifs with h1
        · exact toFixed2_ge_hundredth_of (by
            have := hPk.resolve_left h1
            linarith)
        · exact toFixed2_ge_hundredth_of (by nlinarith)
      | true =>
        by_cases hpt : row.prevCloseCell.truthy = true
        · obtain ⟨q, hq, hq100⟩ := hPt hpt
          exact ⟨q, by simp [prevCloseOut, hpt, hq], hq100⟩
        · by_cases hct : pr.closeCell.truthy = true
          · obtain ⟨q, hq, hq100⟩ := hprev pr rfl hct
            refine ⟨toFixed2 q, by simp [prevCloseOut, hpt, hct, hq], ?_⟩
            exact toFixed2_ge_hundredth_of (by linarith)
          · refine ⟨toFixed2 (closeOut row), by simp [prevCloseOut, hpt, hct], ?_⟩
            exact toFixed2_ge_hundredth_of (by linarith)
  -- volume
  have hvol : ∃ v, volumeOut r pm prev row = some v ∧ 0 < v := by
    obtain ⟨p, hp, hp100⟩ := hprevC
    by_cases hraw : parseFloatOr0 row.volumeCell = 0
    · have hpne : ¬(p = 0) := by intro h0; rw [h0] at hp100; norm_num at hp100
      refine ⟨((⌊(50000 + |closeOut row - p| / p * 500000) * (0.5 + r.vol)⌋ : ℤ) : ℚ),
        by simp [volumeOut, hraw, hp, hpne], ?_⟩
      have harg : (25000 : ℚ) ≤
          (50000 + |closeOut row - p| / p * 500000) * (0.5 + r.vol) := by
        have hdiv : 0 ≤ |closeOut row - p| / p :=
          div_nonneg (abs_nonneg _) (by linarith)
        nlinarith
      have hf : (25000 : ℤ) ≤ ⌊(50000 + |closeOut row - p| / p * 500000) * (0.5 + r.vol)⌋ :=
        Int.le_floor.mpr (by push_cast; linarith)
      have h25 : (25000 : ℚ) ≤
          ((⌊(50000 + |closeOut row - p| / p * 500000) * (0.5 + r.vol)⌋ : ℤ) : ℚ) := by
        exact_mod_cast hf
      linarith
    · exact ⟨parseFloatOr0 row.volumeCell, by simp [volumeOut, hraw],
        lt_of_le_of_ne hVol (Ne.symm hraw)⟩
  -- trades
  have htr : ∃ t, tradesOut r pm prev row = some t ∧ 0 ≤ t := by
    by_cases ht : row.tradesCell.truthy = true
    · obtain ⟨q, hq, hq0⟩ := hTt ht
      exact ⟨q, by simp [tradesOut, ht, hq], hq0⟩
    · obtain ⟨v, hv, hvpos⟩ := hvol
      refine ⟨((⌊v / (50 + r.lot * 200)⌋ : ℤ) : ℚ), by simp [tradesOut, ht, hv], ?_⟩
      have hden : (0 : ℚ) < 50 + r.lot * 200 := by nlinarith
      have hq : (0 : ℚ) ≤ v / (50 + r.lot * 200) := le_of_lt (div_pos hvpos hden)
      have hf : (0 : ℤ) ≤ ⌊v / (50 + r.lot * 200)⌋ := Int.floor_nonneg.mpr hq
      exact_mod_cast hf
  -- vwap
  have hvw : ∃ w, vwapOut r row = some w ∧ 0 < w := by
    by_cases hvt : row.vwapCell.truthy = true
    · obtain ⟨q, hq, hq100⟩ := hVt hvt
      refine ⟨toFixed2 q, by simp [vwapOut, hvt, hq], ?_⟩
      exact lt_of_lt_of_le hcent (toFixed2_ge_hundredth_of (by linarith))
    · refine ⟨toFixed2 ((highOut r row + lowOut r row + closeOut row * 2) / 4),
        by simp [vwapOut, hvt], ?_⟩
      exact lt_of_lt_of_le hcent (toFixed2_ge_hundredth_of (by linarith))
  have hpC : ∃ p, (fillRow r k pm prev row).prevClose = some p ∧ 0 < p := by
    obtain ⟨p, hp, h100⟩ := hprevC
    exact ⟨p, hp, lt_of_lt_of_le hcent h100⟩
  have hltpPos : 0 < (fillRow r k pm prev row).ltp := by
    have hle : (fillRow r k pm prev row).ltp = closeOut row := rfl
    rw [hle]
    exact lt_of_lt_of_le hcent hclose
  exact ⟨lt_of_lt_of_le hcent hopen, lt_of_lt_of_le hcent hhigh, lt_of_lt_of_le hcent hlow,
    lt_of_lt_of_le hcent hclose, hltpPos, hpC, hvw, hvol, htr⟩

theorem mem_enhancedDataFilling {pm : Bool} {rnd : ℕ → Rands} {nowMs : ℤ}
    {data : List RawRow} {nr : NRow} (h : nr ∈ enhancedDataFilling pm rnd nowMs data) :
    ∃ i : Fin data.length,
      nr = fillRow (rnd (i : ℕ)) (nowMs - ((data.length : ℤ) - ((i : ℕ) : ℤ)) * 86400000) pm
        (if (i : ℕ) = 0 then none else data.get? ((i : ℕ) - 1)) (data.get i) := by
  simp only [enhancedDataFilling, List.mem_map] at h
  obtain ⟨i, _, hi⟩ := h
  exact ⟨i, hi.symm⟩

theorem length_enhancedDataFilling (pm : Bool) (rnd : ℕ → Rands) (nowMs : ℤ)
    (data : List RawRow) :
    (enhancedDataFilling pm rnd nowMs data).length = data.length := by
  simp [enhancedDataFilling]

theorem validateAndProcessData_ok {pm : Bool} {rnd : ℕ → Rands} {nowMs : ℤ}
    {data : List RawRow} {rows : List NRow}
    (h : validateAndProcessData pm rnd nowMs data = .ok rows) :
    rows = sortJs (fun a b => decide (a.dateKey ≤ b.dateKey))
        (enhancedDataFilling pm rnd nowMs data) ∧ 5 ≤ rows.length := by
  unfold validateAndProcessData at h
  split_ifs at h with h1 h2
  cases h
  exact ⟨rfl, by omega⟩

/-- An `Except` whose `toOption` is `some` is `ok`. -/
theorem except_ok_of_toOption {ε α : Type} {e : Except ε α} {x : α}
    (h : e.toOption = some x) : e = .ok x := by
  cases e with
  | error err => simp [Except.toOption] at h
  | ok a => simpa [Except.toOption] using congrArg (Except.ok (ε := ε)) h

end FileUpload

open FileUpload in
/-- C1 (amended): every row of a CanonicalSeries the pipeline returns satisfies
the containment invariant `high ≥ open`, `high ≥ close`, `low ≤ open`,
`low ≤ close` — including raw positive high/low values violating containment,
which are replaced by synthesized ones — **provided the parsed
open/high/low/close inputs are nonnegative**.  (A raw cell parsing to a negative
number breaks the invariant; see the counterexample.) -/
theorem C1_pipeline_containment (pm : Bool) (rnd : ℕ → Rands) (nowMs : ℤ)
    (data : List RawRow) (hr : ∀ i, RandsOk (rnd i))
    (hd : ∀ row ∈ data, 0 ≤ parseFloatOr0 row.openCell ∧ 0 ≤ parseFloatOr0 row.highCell ∧
      0 ≤ parseFloatOr0 row.lowCell ∧ 0 ≤ parseFloatOr0 row.closeCell) :
    ∀ rows, validateAndProcessData pm rnd nowMs data = .ok rows →
      ∀ nr ∈ rows, Containment nr := by
  intro rows hok nr hmem
  obtain ⟨hrows, _⟩ := validateAndProcessData_ok hok
  rw [hrows, mem_sortJs] at hmem
  obtain ⟨i, rfl⟩ := mem_enhancedDataFilling hmem
  have hcell := hd (data.get i) (List.get_mem data i.1 i.2)
  exact fillRow_containment _ _ _ _ _ (hr (i : ℕ)) hcell.1 hcell.2.1 hcell.2.2.1 hcell.2.2.2

open FileUpload in
/-- The all-zeros draw record (a valid value of every `Math.random()` call). -/
def rand0 : Rands := ⟨0, 0, 0, 0, 0, 0, 0, 0, 0, 0, 0⟩

open FileUpload in
/-- A raw row whose only datum is `open = 100` (all other cells absent). -/
def row100 : RawRow :=
  ⟨none, ⟨true, some 100⟩, absentCell, absentCell, absentCell, absentCell, absentCell,
    absentCell, absentCell, absentCell, absentCell, absentCell⟩

open FileUpload in
/-- A raw row whose only datum is `open = -5` (all other cells absent). -/
def rowNeg : RawRow :=
  ⟨none, ⟨true, some (-5)⟩, absentCell, absentCell, absentCell, absentCell, absentCell,
    absentCell, absentCell, absentCell, absentCell, absentCell⟩

open FileUpload in
/-- A raw row with `close = 100`, `volume = 3`, and no trades column. -/
def rowSmallVol : RawRow :=
  ⟨none, absentCell, absentCell, absentCell, ⟨true, some 100⟩, absentCell, absentCell,
    ⟨true, some 3⟩, absentCell, absentCell, absentCell, absentCell⟩

/-- Placeholder row for total list indexing in closed statements. -/
def dummyNRow : NRow := ⟨0, 0, 0, 0, 0, 0, none, none, none, none, none, none, none⟩

open FileUpload in
/-- The series the pipeline accepts and returns for five `open = -5` rows. -/
def c1NegRows : List NRow :=
  (validateAndProcessData false (fun _ => rand0) 0
    [rowNeg, rowNeg, rowNeg, rowNeg, rowNeg]).toOption.getD []

open FileUpload in
set_option maxRecDepth 100000 in
/-- C1 counterexample: a five-row file whose only mapped cell is `open = "-5"` is
accepted by ingestion (five rows, `.ok`), yet every returned row violates
containment: the reconciled `HIGH = -5.05` is *below* `close = -5` and
`OPEN = -4.95`.  The claim fails for an accepted input file. -/
theorem C1_counterexample_negative_open :
    (validateAndProcessData false (fun _ => rand0) 0
      [rowNeg, rowNeg, rowNeg, rowNeg, rowNeg]).toOption.isSome = true ∧
    (c1NegRows.headD dummyNRow).HIGH = -101/20 ∧
    (c1NegRows.headD dummyNRow).close = -5 ∧
    (c1NegRows.headD dummyNRow).OPEN = -99/20 ∧
    ¬ Containment (c1NegRows.headD dummyNRow) := by
  refine ⟨by decide, by decide, by decide, by decide, ?_⟩
  intro hcon
  have h1 := hcon.1
  have h2 : (c1NegRows.headD dummyNRow).OPEN ≤ (c1NegRows.headD dummyNRow).HIGH →
      False := by decide
  exact h2 h1

open FileUpload in
/-- Witness for C1 at a concrete accepted file of five `open = 100` rows. -/
theorem C1_pipeline_containment_witness :
    Containment (((validateAndProcessData false (fun _ => rand0) 0
      [row100, row100, row100, row100, row100]).toOption.getD []).headD dummyNRow) := by
  have hok : validateAndProcessData false (fun _ => rand0) 0
      [row100, row100, row100, row100, row100] = .ok ((validateAndProcessData false
        (fun _ => rand0) 0 [row100, row100, row100, row100, row100]).toOption.getD []) :=
    except_ok_of_toOption (by decide)
  exact C1_pipeline_containment false (fun _ => rand0) 0
    [row100, row100, row100, row100, row100]
    (fun _ => (by unfold RandsOk; decide : RandsOk rand0))
    (by decide) _ hok _ (by decide)

open FileUpload in
/-- C2: the reconciled close follows the exact fallback chain — the parsed close
when positive, else the first nonzero of open, high, low, else the constant 100
(then formatted to two decimals); and for a row with `open = 100` and missing
high/low/close, the reconciled close is `100` (the open) and the row satisfies
the containment invariant. -/
theorem C2_close_fallback_chain (r : Rands) (k : ℤ) (pm : Bool) (prev : Option RawRow)
    (row : RawRow) (hr : RandsOk r) :
    (fillRow r k pm prev row).close =
      toFixed2 (if 0 < parseFloatOr0 row.closeCell then parseFloatOr0 row.closeCell
        else if parseFloatOr0 row.openCell ≠ 0 then parseFloatOr0 row.openCell
        else if parseFloatOr0 row.highCell ≠ 0 then parseFloatOr0 row.highCell
        else if parseFloatOr0 row.lowCell ≠ 0 then parseFloatOr0 row.lowCell
        else 100) ∧
    (fillRow r k pm prev row100).close = 100 ∧
    (fillRow r k pm prev row100).close = parseFloatOr0 row100.openCell ∧
    Containment (fillRow r k pm prev row100) := by
  refine ⟨?_, ?_, ?_, ?_⟩
  · show closeOut row = _
    unfold closeOut basePrice
    split_ifs <;> rfl
  · exact (by decide : closeOut row100 = 100)
  · exact (by decide : closeOut row100 = parseFloatOr0 row100.openCell)
  · exact fillRow_containment r k pm prev row100 hr (by decide) (by decide) (by decide)
      (by decide)

open FileUpload in
/-- Witness for C2 at the all-zero draws. -/
theorem C2_close_fallback_chain_witness :
    (fillRow rand0 0 false none row100).close =
      toFixed2 (if 0 < parseFloatOr0 row100.closeCell then parseFloatOr0 row100.closeCell
        else if parseFloatOr0 row100.openCell ≠ 0 then parseFloatOr0 row100.openCell
        else if parseFloatOr0 row100.highCell ≠ 0 then parseFloatOr0 row100.highCell
        else if parseFloatOr0 row100.lowCell ≠ 0 then parseFloatOr0 row100.lowCell
        else 100) ∧
    (fillRow rand0 0 false none row100).close = 100 ∧
    (fillRow rand0 0 false none row100).close = parseFloatOr0 row100.openCell ∧
    Containment (fillRow rand0 0 false none row100) :=
  C2_close_fallback_chain rand0 0 false none row100 (by unfold RandsOk; decide)

open FileUpload in
/-- C5: the pipeline never returns a series shorter than 5 rows: an `.ok` result
has at least 5 rows, and any reconciled input with exactly 3 rows is rejected
with the insufficient-data error (so no CanonicalSeries reaches the consumer). -/
theorem C5_minimum_row_threshold (pm : Bool) (rnd : ℕ → Rands) (nowMs : ℤ) :
    (∀ (data : List RawRow) (rows : List NRow),
      validateAndProcessData pm rnd nowMs data = .ok rows → 5 ≤ rows.length) ∧
    (∀ data : List RawRow, data.length = 3 →
      validateAndProcessData pm rnd nowMs data =
        .error "Insufficient data. Please provide at least 5 rows for meaningful analysis.") := by
  constructor
  · intro data rows hok
    exact (validateAndProcessData_ok hok).2
  · intro data h3
    have hlen : (sortJs (fun a b => decide (a.dateKey ≤ b.dateKey))
        (enhancedDataFilling pm rnd nowMs data)).length = 3 := by
      rw [length_sortJs, length_enhancedDataFilling, h3]
    unfold validateAndProcessData
    rw [if_neg (by omega), if_pos (by omega)]

open FileUpload in
/-- Witness for C5 at a concrete 3-row file. -/
theorem C5_minimum_row_threshold_witness :
    validateAndProcessData false (fun _ => rand0) 0 [row100, row100, row100] =
      .error "Insufficient data. Please provide at least 5 rows for meaningful analysis." :=
  (C5_minimum_row_threshold false (fun _ => rand0) 0).2 [row100, row100, row100] rfl

open FileUpload in
/-- C7 (amended): in every returned row the seven price fields and the volume are
strictly positive, provided the raw inputs are well-formed (`RowOk`: price cells
missing or ≥ 0.01, present prevClose/vwap/close cells ≥ 0.01, volume parses
nonnegatively, a present trades cell parses nonnegatively); the trade count,
however, is only guaranteed to be a nonnegative number — it *can* be zero (see
the counterexample), so the claim's "trade count > 0" does not hold. -/
theorem C7_pipeline_positivity (pm : Bool) (rnd : ℕ → Rands) (nowMs : ℤ)
    (data : List RawRow) (hr : ∀ i, RandsOk (rnd i)) (hd : ∀ row ∈ data, RowOk row) :
    ∀ rows, validateAndProcessData pm rnd nowMs data = .ok rows →
      ∀ nr ∈ rows, 0 < nr.OPEN ∧ 0 < nr.HIGH ∧ 0 < nr.LOW ∧ 0 < nr.close ∧ 0 < nr.ltp ∧
        (∃ p, nr.prevClose = some p ∧ 0 < p) ∧ (∃ w, nr.vwap = some w ∧ 0 < w) ∧
        (∃ v, nr.volume = some v ∧ 0 < v) ∧ (∃ t, nr.trades = some t ∧ 0 ≤ t) := by
  intro rows hok nr hmem
  obtain ⟨hrows, _⟩ := validateAndProcessData_ok hok
  rw [hrows, mem_sortJs] at hmem
  obtain ⟨i, rfl⟩ := mem_enhancedDataFilling hmem
  refine fillRow_positive _ _ _ _ _ (hr _) (hd _ (List.get_mem data i.1 i.2)) ?_
  intro pr hpr
  by_cases hi0 : (i : ℕ) = 0
  · rw [if_pos hi0] at hpr
    cases hpr
  · rw [if_neg hi0] at hpr
    have hmem2 : pr ∈ data := List.get?_mem hpr
    exact (hd pr hmem2).2.2.2.2.2.2.2.1

open FileUpload in
/-- The series returned for five `close = 100, volume = 3` rows with no trades
column. -/
def c7Rows : List NRow :=
  (validateAndProcessData false (fun _ => rand0) 0
    [rowSmallVol, rowSmallVol, rowSmallVol, rowSmallVol, rowSmallVol]).toOption.getD []

open FileUpload in
set_option maxRecDepth 100000 in
/-- C7 counterexample: a file of five rows with `close = 100` and raw
`volume = 3` (no trades column) is accepted, and every returned row has trade
count `Math.floor(3 / avgTradeSize) = 0` — refuting "trade count > 0". -/
theorem C7_counterexample_zero_trade_count :
    (validateAndProcessData false (fun _ => rand0) 0
      [rowSmallVol, rowSmallVol, rowSmallVol, rowSmallVol, rowSmallVol]).toOption.isSome
        = true ∧
    (c7Rows.headD dummyNRow).trades = some 0 := by
  refine ⟨by decide, by decide⟩

open FileUpload in
/-- Witness for C7 at a concrete accepted file of five `close = 100` rows. -/
theorem C7_pipeline_positivity_witness :
    0 < (((validateAndProcessData false (fun _ => rand0) 0
      [rowSmallVol, rowSmallVol, rowSmallVol, rowSmallVol, rowSmallVol]).toOption.getD
        []).headD dummyNRow).OPEN ∧
    (∃ t, (((validateAndProcessData false (fun _ => rand0) 0
      [rowSmallVol, rowSmallVol, rowSmallVol, rowSmallVol, rowSmallVol]).toOption.getD
        []).headD dummyNRow).trades = some t ∧ 0 ≤ t) := by
  have hok : validateAndProcessData false (fun _ => rand0) 0
      [rowSmallVol, rowSmallVol, rowSmallVol, rowSmallVol, rowSmallVol] =
      .ok ((validateAndProcessData false (fun _ => rand0) 0
        [rowSmallVol, rowSmallVol, rowSmallVol, rowSmallVol, rowSmallVol]).toOption.getD
          []) :=
    except_ok_of_toOption (by decide)
  have h := C7_pipeline_positivity false (fun _ => rand0) 0
    [rowSmallVol, rowSmallVol, rowSmallVol, rowSmallVol, rowSmallVol]
    (fun _ => (by unfold RandsOk; decide : RandsOk rand0))
    (by
      intro row hrow
      have : row = rowSmallVol := by
        simp only [List.mem_cons, List.not_mem_nil, or_false] at hrow
        rcases hrow with rfl | rfl | rfl | rfl | rfl <;> rfl
      rw [this]
      unfold RowOk PriceCellOk PosIfTruthy NonnegIfTruthy
      exact ⟨Or.inl (by decide), Or.inl (by decide), Or.inl (by decide),
        Or.inr (by decide), Or.inl (by decide),
        fun ht => absurd ht (by decide), fun ht => absurd ht (by decide),
        fun _ => ⟨100, by decide, by decide⟩,
        by decide, fun ht => absurd ht (by decide)⟩)
    _ hok
  have h2 := h (((validateAndProcessData false (fun _ => rand0) 0
    [rowSmallVol, rowSmallVol, rowSmallVol, rowSmallVol, rowSmallVol]).toOption.getD
      []).headD dummyNRow) (by decide)
  exact ⟨h2.1, h2.2.2.2.2.2.2.2.2⟩
